import Mathlib

/-!
logsuck: the start-up wiring of `cmd/logsuck/main.go`.

A shallow embedding of `main.go`: the package-level configuration value `cfg`,
the `flagStringArray` flag type, and `main` itself, written as a program over an
explicit world (the global variables, the log of calls made to the outside, a
supply of fresh handles).  The Go standard library's `regexp` package is not part
of the repository; the program is generic in the `compile` function it is linked
against, and a fragment of Go's regular-expression syntax is embedded below so
that the built-in patterns can be evaluated.
-/

namespace Logsuck

/-! ## A fragment of Go's `regexp` package

The fragment covers literals, `.`, `^`, `$`, the Perl classes `\d \w \s` and their
negations, escaped punctuation, the escapes `\n \t \r \f \v \a`, alternation,
the repetition operators `* + ?` (greedy and non-greedy), and capturing
(`( )`, `(?P<name> )`) and non-capturing (`(?: )`) groups.  A pattern that uses
anything else (bracket classes, counted repetition, flags, other escapes, `*` or
`+` applied to an operand that can match the empty string) is reported with the
error code `unsupported by this fragment`; every pattern evaluated in this
development lies inside the fragment. -/
namespace regexp

/-- Perl character classes. -/
inductive PerlClass where
  | digit
  | word
  | space
  deriving DecidableEq, Repr

/-- Repetition operators. -/
inductive RepOp where
  | star
  | plus
  | quest
  deriving DecidableEq, Repr

/-- Abstract syntax of the fragment. -/
inductive Re where
  | empty
  | lit (c : Char)
  | anyCharNotNL
  | perl (k : PerlClass) (negated : Bool)
  | beginText
  | endText
  | cat (a b : Re)
  | alt (a b : Re)
  | rep (op : RepOp) (greedy : Bool) (a : Re)
  | capture (idx : Nat) (name : String) (a : Re)
  deriving DecidableEq, Repr

/-- Whether the expression can match the empty string. -/
def Re.nullable : Re → Bool
  | .empty => true
  | .lit _ => false
  | .anyCharNotNL => false
  | .perl _ _ => false
  | .beginText => true
  | .endText => true
  | .cat a b => a.nullable && b.nullable
  | .alt a b => a.nullable || b.nullable
  | .rep .plus _ a => a.nullable
  | .rep _ _ _ => true
  | .capture _ _ a => a.nullable

/-- A parse error of `regexp/syntax`: an error code and the offending text. -/
structure Error where
  code : String
  expr : String
  deriving DecidableEq, Repr

/-- The text of `(*syntax.Error).Error()`. -/
def Error.message (e : Error) : String :=
  "error parsing regexp: " ++ e.code ++ ": \x60" ++ e.expr ++ "\x60"

/-- Tokens of the fragment. -/
inductive Tok where
  | atom (r : Re)
  | lparen (capturing : Bool) (name : String)
  | rparen
  | bar
  | rep (op : RepOp) (greedy : Bool) (text : String)
  deriving DecidableEq, Repr

def isDigit (c : Char) : Bool := decide (48 ≤ c.toNat) && decide (c.toNat ≤ 57)

def isUpper (c : Char) : Bool := decide (65 ≤ c.toNat) && decide (c.toNat ≤ 90)

def isLower (c : Char) : Bool := decide (97 ≤ c.toNat) && decide (c.toNat ≤ 122)

/-- The class `\w`: `[0-9A-Za-z_]`. -/
def isWordChar (c : Char) : Bool := isDigit c || isUpper c || isLower c || decide (c.toNat = 95)

/-- The class `\s`: `[\t\n\f\r ]`. -/
def isSpace (c : Char) : Bool :=
  decide (c.toNat = 9) || decide (c.toNat = 10) || decide (c.toNat = 12) ||
    decide (c.toNat = 13) || decide (c.toNat = 32)

def isAlnum (c : Char) : Bool := isDigit c || isUpper c || isLower c

def PerlClass.test : PerlClass → Char → Bool
  | .digit, c => isDigit c
  | .word, c => isWordChar c
  | .space, c => isSpace c

/-- Splits a group name off the text after `(?P<`: the name and what follows `>`. -/
def takeName : List Char → List Char → Option (List Char × List Char)
  | _, [] => none
  | acc, c :: rest => if c.toNat = 62 then some (acc.reverse, rest) else takeName (c :: acc) rest

/-- The token for the escape `\c`. -/
def escapeTok (c : Char) : Except Error Tok :=
  if c.toNat = 100 then .ok (.atom (.perl .digit false))
  else if c.toNat = 68 then .ok (.atom (.perl .digit true))
  else if c.toNat = 119 then .ok (.atom (.perl .word false))
  else if c.toNat = 87 then .ok (.atom (.perl .word true))
  else if c.toNat = 115 then .ok (.atom (.perl .space false))
  else if c.toNat = 83 then .ok (.atom (.perl .space true))
  else if c.toNat = 110 then .ok (.atom (.lit (Char.ofNat 10)))
  else if c.toNat = 116 then .ok (.atom (.lit (Char.ofNat 9)))
  else if c.toNat = 114 then .ok (.atom (.lit (Char.ofNat 13)))
  else if c.toNat = 102 then .ok (.atom (.lit (Char.ofNat 12)))
  else if c.toNat = 118 then .ok (.atom (.lit (Char.ofNat 11)))
  else if c.toNat = 97 then .ok (.atom (.lit (Char.ofNat 7)))
  else if c.toNat < 128 && !isAlnum c then .ok (.atom (.lit c))
  else .error ⟨"unsupported by this fragment", String.mk [Char.ofNat 92, c]⟩

/-- The lexer: `fuel` bounds the number of tokens, one per step. -/
def lex : Nat → List Char → Except Error (List Tok)
  | _, [] => .ok []
  | 0, _ :: _ => .error ⟨"out of fuel", ""⟩
  | fuel + 1, c :: rest =>
    if c.toNat = 92 then
      match rest with
      | [] => .error ⟨"trailing backslash at end of expression", ""⟩
      | e :: rest1 =>
        match escapeTok e with
        | .error err => .error err
        | .ok t => (lex fuel rest1).map (t :: ·)
    else if c.toNat = 40 then
      match rest with
      | q :: rest1 =>
        if q.toNat = 63 then
          match rest1 with
          | p :: l :: rest2 =>
            if p.toNat = 80 && l.toNat = 60 then
              match takeName [] rest2 with
              | none => .error ⟨"invalid named capture", String.mk (c :: rest)⟩
              | some (name, rest3) =>
                if name.isEmpty || !name.all isWordChar then
                  .error ⟨"invalid named capture", String.mk ([c, q, p, l] ++ name ++ [Char.ofNat 62])⟩
                else (lex fuel rest3).map (.lparen true (String.mk name) :: ·)
            else if p.toNat = 58 then (lex fuel (l :: rest2)).map (.lparen false "" :: ·)
            else .error ⟨"unsupported by this fragment", String.mk (c :: rest)⟩
          | [p] =>
            if p.toNat = 58 then (lex fuel []).map (.lparen false "" :: ·)
            else .error ⟨"unsupported by this fragment", String.mk (c :: rest)⟩
          | [] => .error ⟨"unsupported by this fragment", String.mk (c :: rest)⟩
        else (lex fuel rest).map (.lparen true "" :: ·)
      | [] => (lex fuel rest).map (.lparen true "" :: ·)
    else if c.toNat = 41 then (lex fuel rest).map (.rparen :: ·)
    else if c.toNat = 124 then (lex fuel rest).map (.bar :: ·)
    else if c.toNat = 42 || c.toNat = 43 || c.toNat = 63 then
      let op : RepOp := if c.toNat = 42 then .star else if c.toNat = 43 then .plus else .quest
      match rest with
      | q :: rest1 =>
        if q.toNat = 63 then (lex fuel rest1).map (.rep op false (String.mk [c, q]) :: ·)
        else (lex fuel rest).map (.rep op true (String.mk [c]) :: ·)
      | [] => (lex fuel rest).map (.rep op true (String.mk [c]) :: ·)
    else if c.toNat = 46 then (lex fuel rest).map (.atom .anyCharNotNL :: ·)
    else if c.toNat = 94 then (lex fuel rest).map (.atom .beginText :: ·)
    else if c.toNat = 36 then (lex fuel rest).map (.atom .endText :: ·)
    else if c.toNat = 91 || c.toNat = 123 then
      .error ⟨"unsupported by this fragment", String.mk (c :: rest)⟩
    else (lex fuel rest).map (.atom (.lit c) :: ·)

/-- One open group on the parse stack: how it was opened, the alternatives
already closed by `|`, and the items of the current alternative, last first. -/
structure Frame where
  capturing : Bool
  idx : Nat
  name : String
  alts : List Re
  cur : List Re
  deriving DecidableEq, Repr

/-- Concatenation of the items of an alternative, given last first. -/
def concatRev : List Re → Re
  | [] => .empty
  | [r] => r
  | r :: rest => .cat (concatRev rest) r

/-- Alternation of a non-empty list of alternatives. -/
def alternate : List Re → Re
  | [] => .empty
  | [r] => r
  | r :: rest => .alt r (alternate rest)

/-- The expression of a finished frame. -/
def Frame.close (f : Frame) : Re :=
  let body := alternate (f.alts ++ [concatRev f.cur])
  if f.capturing then .capture f.idx f.name body else body

/-- The parser's state: the stack of open groups, innermost first, the number
of capture groups opened so far, their names in order, and the text of the
previous token when it was a repetition operator (empty otherwise). -/
structure PState where
  stack : List Frame
  numCap : Nat
  names : List String
  lastRepeat : String
  deriving DecidableEq, Repr

def PState.init : PState :=
  ⟨[⟨false, 0, "", [], []⟩], 0, [], ""⟩

/-- The parser proper, over the token list. `whole` is the source text, quoted in
errors that concern the whole expression.  Capture groups are numbered by their
opening parenthesis; a name may be given to more than one group.  `*` and `+`
over an operand that can match the empty string are outside the fragment. -/
def parseToks (whole : String) : List Tok → PState → Except Error (Re × Nat × List String)
  | [], st =>
    match st.stack with
    | [f] => .ok (f.close, st.numCap, st.names)
    | _ => .error ⟨"missing closing )", whole⟩
  | t :: ts, st =>
    match st.stack with
    | [] => .error ⟨"unexpected )", whole⟩
    | f :: fs =>
      match t with
      | .atom r => parseToks whole ts { st with stack := { f with cur := r :: f.cur } :: fs, lastRepeat := "" }
      | .bar =>
        parseToks whole ts
          { st with stack := { f with alts := f.alts ++ [concatRev f.cur], cur := [] } :: fs,
                    lastRepeat := "" }
      | .lparen capturing name =>
        if capturing then
          parseToks whole ts
            { stack := ⟨true, st.numCap + 1, name, [], []⟩ :: f :: fs,
              numCap := st.numCap + 1, names := st.names ++ [name], lastRepeat := "" }
        else
          parseToks whole ts { st with stack := ⟨false, 0, "", [], []⟩ :: f :: fs, lastRepeat := "" }
      | .rparen =>
        match fs with
        | [] => .error ⟨"unexpected )", whole⟩
        | g :: gs =>
          parseToks whole ts { st with stack := { g with cur := f.close :: g.cur } :: gs, lastRepeat := "" }
      | .rep op greedy text =>
        if st.lastRepeat ≠ "" then
          .error ⟨"invalid nested repetition operator", st.lastRepeat ++ text⟩
        else
          match f.cur with
          | [] => .error ⟨"missing argument to repetition operator", text⟩
          | r :: rs =>
            if op ≠ .quest && r.nullable then
              .error ⟨"unsupported by this fragment", text⟩
            else
              parseToks whole ts
                { st with stack := { f with cur := .rep op greedy r :: rs } :: fs, lastRepeat := text }

/-- A compiled regular expression: its source text (what `(*Regexp).String`
returns), its syntax tree, the number of capture groups and their names (index 0,
the whole match, has the empty name). -/
structure Regexp where
  expr : String
  prog : Re
  numSubexp : Nat
  subexpNames : List String
  deriving DecidableEq, Repr

/-- Go: `regexp.Compile`. -/
def Compile (expr : String) : Except Error Regexp :=
  match lex expr.data.length expr.data with
  | .error e => .error e
  | .ok toks =>
    match parseToks expr toks PState.init with
    | .error e => .error e
    | .ok (re, n, names) => .ok ⟨expr, re, n, "" :: names⟩

/-- Go: `(*Regexp).NumSubexp`. -/
def Regexp.NumSubexp (re : Regexp) : Nat := re.numSubexp

/-- Go: `(*Regexp).SubexpNames`. -/
def Regexp.SubexpNames (re : Regexp) : List String := re.subexpNames

/-! ### Matching

Go's `regexp` finds the leftmost match and, among the matches that start there,
the one a backtracking search would find first.  The matcher below is that
backtracking search, in continuation-passing style. -/

/-- A position in the subject text: the number of characters consumed, the
characters that remain, and the capture groups closed so far, most recent first,
each with its index and its two offsets. -/
structure MState where
  pos : Nat
  rest : List Char
  caps : List (Nat × Nat × Nat)
  deriving DecidableEq, Repr

/-- The outcome of a search: `none` when the fuel ran out, `some none` when there
is no match, `some (some st)` for a match ending in `st`. -/
abbrev Outcome := Option (Option MState)

/-- Matches one character satisfying `p`. -/
def stepChar (p : Char → Bool) (st : MState) (k : MState → Outcome) : Outcome :=
  match st.rest with
  | [] => some none
  | c :: rest => if p c then k { st with pos := st.pos + 1, rest := rest } else some none

/-- Runs `a`, and `b` when `a` found no match. -/
def orElse (a : Outcome) (b : Unit → Outcome) : Outcome :=
  match a with
  | some none => b ()
  | r => r

/-- The backtracking matcher: matches `re` at `st`, then continues with `k`.  The
parser gives `*` and `+` only operands that consume a character, so a round of a
loop always moves forward; a round that did not is cut off. -/
def matchRe : Nat → Re → MState → (MState → Outcome) → Outcome
  | 0, _, _, _ => none
  | fuel + 1, re, st, k =>
    match re with
    | .empty => k st
    | .lit c => stepChar (fun d => d = c) st k
    | .anyCharNotNL => stepChar (fun d => d.toNat ≠ 10) st k
    | .perl cls negated => stepChar (fun d => cls.test d != negated) st k
    | .beginText => if st.pos = 0 then k st else some none
    | .endText => if st.rest.isEmpty then k st else some none
    | .cat a b => matchRe fuel a st (fun st1 => matchRe fuel b st1 k)
    | .alt a b => orElse (matchRe fuel a st k) (fun _ => matchRe fuel b st k)
    | .capture idx _ a =>
      matchRe fuel a st (fun st1 => k { st1 with caps := (idx, st.pos, st1.pos) :: st1.caps })
    | .rep .quest true a => orElse (matchRe fuel a st k) (fun _ => k st)
    | .rep .quest false a => orElse (k st) (fun _ => matchRe fuel a st k)
    | .rep .plus greedy a => matchRe fuel a st (fun st1 => matchRe fuel (.rep .star greedy a) st1 k)
    | .rep .star true a =>
      orElse
        (matchRe fuel a st (fun st1 =>
          if st1.pos = st.pos then some none else matchRe fuel (.rep .star true a) st1 k))
        (fun _ => k st)
    | .rep .star false a =>
      orElse (k st)
        (fun _ => matchRe fuel a st (fun st1 =>
          if st1.pos = st.pos then some none else matchRe fuel (.rep .star false a) st1 k))

/-- The leftmost match of `re` in the text `rest` that begins at offset `pos`
or later; the whole match is recorded as group 0. -/
def searchFrom (fuel : Nat) (re : Re) : Nat → List Char → Outcome
  | pos, [] => matchRe fuel (.capture 0 "" re) ⟨pos, [], []⟩ (fun st => some (some st))
  | pos, c :: rest =>
    orElse (matchRe fuel (.capture 0 "" re) ⟨pos, c :: rest, []⟩ (fun st => some (some st)))
      (fun _ => searchFrom fuel re (pos + 1) rest)

/-- The span of capture group `idx`: the most recently closed one. -/
def capSpan (caps : List (Nat × Nat × Nat)) (idx : Nat) : Option (Nat × Nat) :=
  (caps.find? (fun c => c.1 = idx)).map (·.2)

/-- The text between two offsets of the subject. -/
def slice (s : List Char) (b e : Nat) : String := String.mk ((s.drop b).take (e - b))

/-- The submatch texts of a match ending in the state `st`: index 0 is the whole
match, index `i` the text of group `i` (empty when it took no part). -/
def submatches (s : List Char) (n : Nat) (st : MState) : List String :=
  (List.range (n + 1)).map (fun i =>
    match capSpan st.caps i with
    | some (b, e) => slice s b e
    | none => "")

/-- Fuel that suffices for the backtracking search on a subject of length `n`. -/
def matchFuel (re : Regexp) (n : Nat) : Nat := 4 * (re.expr.length + 1) * (n + 1) + 16

/-- Go: `(*Regexp).FindStringSubmatch`; the outer `none` is for exhausted fuel,
the inner for Go's `nil` (no match). -/
def Regexp.FindStringSubmatch (re : Regexp) (s : String) : Option (Option (List String)) :=
  match searchFrom (matchFuel re s.length) re.prog 0 s.data with
  | none => none
  | some none => some none
  | some (some st) => some (some (submatches s.data re.numSubexp st))

/-- Go: `(*Regexp).MatchString`. -/
def Regexp.MatchString (re : Regexp) (s : String) : Option Bool :=
  (re.FindStringSubmatch s).map Option.isSome

/-- The loop of Go's `(*Regexp).allMatches`: `k` bounds the number of rounds,
`pos` is the offset the next search starts at, `prevMatchEnd` the end of the
previous match (`none` before the first).  An empty match right after a previous
match is not delivered. -/
def allMatches (re : Regexp) (s : List Char) (fuel : Nat) :
    Nat → Nat → Option Nat → Option (List (List String))
  | 0, _, _ => none
  | k + 1, pos, prevMatchEnd =>
    if s.length < pos then some []
    else
      match searchFrom fuel re.prog pos (s.drop pos) with
      | none => none
      | some none => some []
      | some (some st) =>
        match capSpan st.caps 0 with
        | none => none
        | some (b, e) =>
          let accept := !(decide (e = pos) && decide (some b = prevMatchEnd))
          let pos1 := if e = pos then pos + 1 else e
          match allMatches re s fuel k pos1 (some e) with
          | none => none
          | some rest =>
            some (if accept then submatches s re.numSubexp st :: rest else rest)

/-- Go: `(*Regexp).FindAllStringSubmatch(s, -1)`; `none` is exhausted fuel. -/
def Regexp.FindAllStringSubmatch (re : Regexp) (s : String) : Option (List (List String)) :=
  allMatches re s.data (matchFuel re s.length) (s.length + 2) 0 none

end regexp

/-! ## The data `main` works on -/

/-- Modelled from the spec: the declaration of `config.IndexedFileConfig`
(package `internal/config`) is not among the sources.  Its fields are the four
`main` assigns and section 3 of the specification lists: filename,
event-delimiter pattern, poll interval, time-layout string.  The delimiter is a
`*regexp.Regexp`, `none` being Go's `nil`; the interval is a `time.Duration`,
a count of nanoseconds. -/
structure IndexedFileConfig (R : Type) where
  Filename : String
  EventDelimiter : Option R
  ReadInterval : Int
  TimeLayout : String
  deriving DecidableEq, Repr

/-- The zero value `make` fills a fresh slice of `IndexedFileConfig` with. -/
def IndexedFileConfig.zero {R : Type} : IndexedFileConfig R := ⟨"", none, 0, ""⟩

/-- Modelled from the spec: the declaration of `config.SqliteConfig` is not among
the sources; `main` uses its one field `DatabaseFile`. -/
structure SqliteConfig where
  DatabaseFile : String
  deriving DecidableEq, Repr

/-- Modelled from the spec: the declaration of `config.WebConfig` is not among
the sources; `main` uses its fields `Enabled` and `Address`. -/
structure WebConfig where
  Enabled : Bool
  Address : String
  deriving DecidableEq, Repr

/-- Modelled from the spec: the declaration of `config.Config` is not among the
sources; its fields are those the initialiser of `cfg` names.  An entry of
`FieldExtractors` is a `*regexp.Regexp`, `none` being `nil`.  `SQLite` and `Web`
are pointers that the initialiser sets and nothing resets, held here by value. -/
structure Config (R : Type) where
  IndexedFiles : List (IndexedFileConfig R)
  FieldExtractors : List (Option R)
  SQLite : SqliteConfig
  Web : WebConfig
  deriving DecidableEq, Repr

/-- Go: `type flagStringArray []string`. -/
abbrev flagStringArray := List String

/-- Go: `func (i *flagStringArray) Set(value string) error`: the array after
the call and the error returned (`none` is `nil`). -/
def flagStringArray.Set (i : flagStringArray) (value : String) : flagStringArray × Option String :=
  (i ++ [value], none)

/-- The package-level flag variables. -/
structure FlagVars where
  databaseFileFlag : String
  eventDelimiterFlag : String
  fieldExtractorFlags : flagStringArray
  timeLayoutFlag : String
  webAddrFlag : String
  deriving DecidableEq, Repr

/-- The flag variables before `main` runs: Go's zero values. -/
def FlagVars.zero : FlagVars := ⟨"", "", [], "", ""⟩

/-- One occurrence of a flag on the command line, with its value. -/
inductive FlagArg where
  | dbfile (value : String)
  | delimiter (value : String)
  | fieldextractor (value : String)
  | timelayout (value : String)
  | webaddr (value : String)
  deriving DecidableEq, Repr

/-- A command line that `flag.Parse` accepts: the flag occurrences in order,
then the positional arguments (`flag.Args()`). -/
structure CommandLine where
  flags : List FlagArg
  args : List String
  deriving DecidableEq, Repr

/-! ## Handles of the collaborators

The packages `database/sql`, `internal/events`, `internal/jobs`,
`internal/files` and `internal/web` are not among the sources.  A value they
hand back is a handle: a fresh identity and the arguments it was made from. -/

/-- A `*sql.DB`. -/
structure DB where
  id : Nat
  deriving DecidableEq, Repr

/-- The value of `events.SqliteRepository(db)`. -/
structure EventRepository where
  id : Nat
  db : DB
  deriving DecidableEq, Repr

/-- The value of `jobs.SqliteRepository(db)`. -/
structure JobRepository where
  id : Nat
  db : DB
  deriving DecidableEq, Repr

/-- The value of `events.BatchedRepositoryPublisher(&cfg, repo)`. -/
structure Publisher where
  id : Nat
  repo : EventRepository
  deriving DecidableEq, Repr

/-- A `chan files.FileWatcherCommand`. -/
structure Chan where
  id : Nat
  deriving DecidableEq, Repr

/-- An `*os.File`. -/
structure File where
  id : Nat
  name : String
  deriving DecidableEq, Repr

/-- The value of `files.NewFileWatcher(file, commands, publisher, f)`. -/
structure FileWatcher (R : Type) where
  fileConfig : IndexedFileConfig R
  commands : Option Chan
  publisher : Publisher
  file : File
  deriving DecidableEq, Repr

/-- A call `main` makes to the outside: its arguments and, where it hands back a
handle, the handle (`none` when the call returned an error instead). -/
inductive Call (R : Type) where
  | regexpCompile (expr : String)
  | regexpMustCompile (expr : String)
  | sqlOpen (driverName dataSourceName : String) (result : Option DB)
  | setMaxOpenConns (db : DB) (n : Int)
  | eventsSqliteRepository (db : DB) (result : Option EventRepository)
  | batchedRepositoryPublisher (repo : EventRepository) (result : Publisher)
  | jobsSqliteRepository (db : DB) (result : Option JobRepository)
  | makeChan (result : Chan)
  | osOpen (name : String) (result : Option File)
  | newFileWatcher (result : FileWatcher R)
  | logPrintln (msg : String)
  | goStart (fw : FileWatcher R)
  | newWeb (repo : EventRepository) (jobRepo : JobRepository)
  | serve
  deriving DecidableEq, Repr

/-- What the outside answers: for each fallible call the error it returns, `none`
for success.  `serve` is the error `Serve` returns, `none` when it never returns. -/
structure Env where
  sqlOpen : String → String → Option String
  eventsSqliteRepository : DB → Option String
  jobsSqliteRepository : DB → Option String
  osOpen : String → Option String
  serve : Option String

/-- How a run of `main` ends: `log.Fatal*` (the message is logged and the process
exits); the panic of `regexp.MustCompile` on the expression `expr` that failed to
compile with the error `err` (Go's panic value is a text made of the quoted
expression and the error; the two parts are kept here, the text is not); the
run-time panic of an index out of range; a command line the `flag` package
rejects; or the process staying inside `Serve`. -/
inductive Stop where
  | fatal (msg : String)
  | mustCompilePanic (expr err : String)
  | indexOutOfRange (index length : Nat)
  | usage (msg : String)
  | serving
  deriving DecidableEq, Repr

/-- The state of the process: the global `cfg`, the flag variables, the calls made
so far (oldest first) and the identity the next fresh handle gets. -/
structure World (R : Type) where
  cfg : Config R
  flags : FlagVars
  calls : List (Call R)
  next : Nat
  deriving DecidableEq, Repr

/-- The process as `main` finds it, the package-level initialisers having run. -/
def World.init {R : Type} (c : Config R) : World R := ⟨c, FlagVars.zero, [], 0⟩

/-- A piece of `main`: from a state of the process to its result and the state
after it. -/
abbrev Prog (R : Type) (α : Type) : Type := World R → Except Stop α × World R

instance {R : Type} : Monad (Prog R) where
  pure a := fun w => (.ok a, w)
  bind m f := fun w =>
    match m w with
    | (.ok a, w1) => f a w1
    | (.error e, w1) => (.error e, w1)

/-- Records a call. -/
def call {R : Type} (c : Call R) : Prog R Unit :=
  fun w => (.ok (), { w with calls := w.calls ++ [c] })

/-- Ends the run. -/
def stop {R α : Type} (s : Stop) : Prog R α := fun w => (.error s, w)

/-- A fresh identity. -/
def fresh {R : Type} : Prog R Nat := fun w => (.ok w.next, { w with next := w.next + 1 })

def getCfg {R : Type} : Prog R (Config R) := fun w => (.ok w.cfg, w)

def setCfg {R : Type} (c : Config R) : Prog R Unit := fun w => (.ok (), { w with cfg := c })

def getFlags {R : Type} : Prog R FlagVars := fun w => (.ok w.flags, w)

def setFlags {R : Type} (f : FlagVars) : Prog R Unit := fun w => (.ok (), { w with flags := f })

/-- Go: `xs[i] = v`; a panic when `i` is out of range. -/
def sliceSet {R α : Type} (xs : List α) (i : Nat) (v : α) : Prog R (List α) :=
  if i < xs.length then pure (xs.set i v) else stop (.indexOutOfRange i xs.length)

/-- Go: `xs[i]`; a panic when `i` is out of range. -/
def sliceGet {R α : Type} (xs : List α) (i : Nat) : Prog R α :=
  match xs.get? i with
  | some v => pure v
  | none => stop (.indexOutOfRange i xs.length)

/-! ## The calls -/

section
variable {R : Type} (compile : String → Except String R) (env : Env)

/-- Go: `regexp.Compile(expr)`; the error is given by its text. -/
def regexpCompile (expr : String) : Prog R (Except String R) := do
  call (.regexpCompile expr)
  pure (compile expr)

/-- The result of `regexp.MustCompile(expr)`: the compiled expression, or the
panic for `expr` and the error of `regexp.Compile`. -/
def mustCompile (expr : String) : Except Stop R :=
  match compile expr with
  | .ok re => .ok re
  | .error err => .error (.mustCompilePanic expr err)

/-- Go: `regexp.MustCompile(expr)`, which panics when `expr` does not compile. -/
def regexpMustCompile (expr : String) : Prog R R := do
  call (.regexpMustCompile expr)
  match mustCompile compile expr with
  | .ok re => pure re
  | .error s => stop s

/-- Go: `sql.Open(driverName, dataSourceName)`. -/
def sqlOpen (driverName dataSourceName : String) : Prog R (Except String DB) := do
  match env.sqlOpen driverName dataSourceName with
  | some err =>
    call (.sqlOpen driverName dataSourceName none)
    pure (.error err)
  | none =>
    let db : DB := ⟨← fresh⟩
    call (.sqlOpen driverName dataSourceName (some db))
    pure (.ok db)

/-- Go: `db.SetMaxOpenConns(n)`. -/
def setMaxOpenConns (db : DB) (n : Int) : Prog R Unit := call (.setMaxOpenConns db n)

/-- Go: `events.SqliteRepository(db)`. -/
def eventsSqliteRepository (db : DB) : Prog R (Except String EventRepository) := do
  match env.eventsSqliteRepository db with
  | some err =>
    call (.eventsSqliteRepository db none)
    pure (.error err)
  | none =>
    let repo : EventRepository := ⟨← fresh, db⟩
    call (.eventsSqliteRepository db (some repo))
    pure (.ok repo)

/-- Go: `events.BatchedRepositoryPublisher(&cfg, repo)`. -/
def batchedRepositoryPublisher (repo : EventRepository) : Prog R Publisher := do
  let publisher : Publisher := ⟨← fresh, repo⟩
  call (.batchedRepositoryPublisher repo publisher)
  pure publisher

/-- Go: `jobs.SqliteRepository(db)`. -/
def jobsSqliteRepository (db : DB) : Prog R (Except String JobRepository) := do
  match env.jobsSqliteRepository db with
  | some err =>
    call (.jobsSqliteRepository db none)
    pure (.error err)
  | none =>
    let repo : JobRepository := ⟨← fresh, db⟩
    call (.jobsSqliteRepository db (some repo))
    pure (.ok repo)

/-- Go: `make(chan files.FileWatcherCommand)`. -/
def makeChan : Prog R Chan := do
  let c : Chan := ⟨← fresh⟩
  call (.makeChan c)
  pure c

/-- Go: `os.Open(name)`. -/
def osOpen (name : String) : Prog R (Except String File) := do
  match env.osOpen name with
  | some err =>
    call (.osOpen name none)
    pure (.error err)
  | none =>
    let f : File := ⟨← fresh, name⟩
    call (.osOpen name (some f))
    pure (.ok f)

/-- Go: `files.NewFileWatcher(file, commands, publisher, f)`. -/
def newFileWatcher (file : IndexedFileConfig R) (commands : Option Chan) (publisher : Publisher)
    (f : File) : Prog R (FileWatcher R) := do
  let fw : FileWatcher R := ⟨file, commands, publisher, f⟩
  call (.newFileWatcher fw)
  pure fw

/-- Go: `log.Fatalf`, `log.Fatalln`, `log.Fatal`: `msg` is the text logged. -/
def logFatal {α : Type} (msg : String) : Prog R α := stop (.fatal msg)

/-! ## The program -/

/-- The pattern of the first built-in extraction rule (line 26). -/
def defaultFieldExtractor : String := "(\\w+)=(\\w+)"

/-- The pattern of the second built-in extraction rule (line 27). -/
def defaultTimeExtractor : String :=
  "^(?P<_time>\\d\\d\\d\\d/\\d\\d/\\d\\d \\d\\d:\\d\\d:\\d\\d.\\d\\d\\d\\d\\d\\d)"

/-- Go: `var cfg = config.Config{...}` (lines 22-38), the package-level
initialiser; the two calls of `regexp.MustCompile` may panic. -/
def cfg : Except Stop (Config R) :=
  match mustCompile compile defaultFieldExtractor with
  | .error s => .error s
  | .ok r1 =>
    match mustCompile compile defaultTimeExtractor with
    | .error s => .error s
    | .ok r2 =>
      .ok { IndexedFiles := []
            FieldExtractors := [some r1, some r2]
            SQLite := { DatabaseFile := "logsuck.db" }
            Web := { Enabled := true, Address := ":8080" } }

/-- The usage text of the `fieldextractor` flag (lines 61-67). -/
def fieldExtractorUsage : String :=
  "A regular expression which will be used to extract field values from events.\n" ++
  "Can be given in two variants:\n" ++
  "1. An expression with a single, named capture group. The name of the capture group will be used as the field name and the captured string will be used as the value.\n" ++
  "2. An expression with two unnamed capture groups. The first capture group will be used as the field name and the second group as the value.\n" ++
  "If a field with the name \x27_time\x27 is extracted and matches the given timelayout, it will be used as the timestamp of the event. Otherwise the time the event was read will be used.\n" ++
  "Multiple extractors can be specified by using the fieldextractor flag multiple times. " ++
  "(defaults \"(\\w+)=(\\w+)\" and \"(?P<_time>\\d\\d\\d\\d/\\d\\d/\\d\\d \\d\\d:\\d\\d:\\d\\d.\\d\\d\\d\\d\\d\\d)\")"

/-- Go: the calls of `flag.StringVar` (lines 58-69), each of which stores the
flag's default in its variable; `flag.Var` leaves `fieldExtractorFlags` as it is. -/
def registerFlags : Prog R Unit := do
  let f ← getFlags
  setFlags { f with databaseFileFlag := "logsuck.db"
                    eventDelimiterFlag := "\n"
                    timeLayoutFlag := "2006/01/02 15:04:05"
                    webAddrFlag := ":8080" }

/-- What `flag.Parse` does with one flag occurrence: a string flag gets the value,
`fieldextractor` is passed to `Set`, whose error, if any, is reported. -/
def flagSet (f : FlagVars) : FlagArg → Except String FlagVars
  | .dbfile v => .ok { f with databaseFileFlag := v }
  | .delimiter v => .ok { f with eventDelimiterFlag := v }
  | .timelayout v => .ok { f with timeLayoutFlag := v }
  | .webaddr v => .ok { f with webAddrFlag := v }
  | .fieldextractor v =>
    match flagStringArray.Set f.fieldExtractorFlags v with
    | (arr, none) => .ok { f with fieldExtractorFlags := arr }
    | (_, some err) => .error err

/-- The flag variables after the occurrences have been processed in order. -/
def flagParseVars : List FlagArg → FlagVars → Except String FlagVars
  | [], f => .ok f
  | a :: rest, f =>
    match flagSet f a with
    | .ok f1 => flagParseVars rest f1
    | .error err => .error err

/-- Go: `flag.Parse()` (line 70). -/
def flagParse (flags : List FlagArg) : Prog R Unit := do
  match flagParseVars flags (← getFlags) with
  | .ok f => setFlags f
  | .error err => stop (.usage err)

/-- Go: the loop of lines 77-83, from index `i` on. -/
def compileFieldExtractors : Nat → List String → Prog R Unit
  | _, [] => pure ()
  | i, fe :: rest => do
    match ← regexpCompile compile fe with
    | .error err => logFatal ("failed to compile regex \x27" ++ fe ++ "\x27: " ++ err ++ "\n")
    | .ok re =>
      let c ← getCfg
      let fes ← sliceSet c.FieldExtractors i (some re)
      setCfg { c with FieldExtractors := fes }
      compileFieldExtractors (i + 1) rest

/-- Go: the loop of lines 90-97, from index `i` on. -/
def buildIndexedFiles : Nat → List String → Prog R Unit
  | _, [] => pure ()
  | i, file :: rest => do
    let f ← getFlags
    let delimiter ← regexpMustCompile compile f.eventDelimiterFlag
    let entry : IndexedFileConfig R :=
      { Filename := file
        EventDelimiter := some delimiter
        ReadInterval := 1 * 1000000000
        TimeLayout := f.timeLayoutFlag }
    let c ← getCfg
    let files ← sliceSet c.IndexedFiles i entry
    setCfg { c with IndexedFiles := files }
    buildIndexedFiles (i + 1) rest

/-- Go: lines 72-74, `if databaseFileFlag != "" { ... }`. -/
def loadDatabaseFile : Prog R Unit := do
  let f ← getFlags
  if f.databaseFileFlag ≠ "" then
    let c ← getCfg
    setCfg { c with SQLite := { c.SQLite with DatabaseFile := f.databaseFileFlag } }

/-- Go: lines 75-84, `if len(fieldExtractorFlags) > 0 { ... }`. -/
def loadFieldExtractors : Prog R Unit := do
  let f ← getFlags
  if f.fieldExtractorFlags.length > 0 then
    let c ← getCfg
    setCfg { c with FieldExtractors := List.replicate f.fieldExtractorFlags.length none }
    compileFieldExtractors compile 0 f.fieldExtractorFlags

/-- Go: lines 85-87, `if webAddrFlag != "" { ... }`. -/
def loadWebAddr : Prog R Unit := do
  let f ← getFlags
  if f.webAddrFlag ≠ "" then
    let c ← getCfg
    setCfg { c with Web := { c.Web with Address := f.webAddrFlag } }

/-- Go: lines 89-97, the making and filling of `cfg.IndexedFiles` from `flag.Args()`. -/
def loadIndexedFiles (args : List String) : Prog R Unit := do
  let c ← getCfg
  setCfg { c with IndexedFiles := List.replicate args.length IndexedFileConfig.zero }
  buildIndexedFiles compile 0 args

/-- Go: lines 58-97 of `main`, the loading of the configuration: the flags are
registered and parsed, then `cfg` is filled from them. -/
def loadConfig (cl : CommandLine) : Prog R Unit := do
  registerFlags
  flagParse cl.flags
  loadDatabaseFile
  loadFieldExtractors compile
  loadWebAddr
  loadIndexedFiles compile cl.args

/-- Go: the loop of lines 115-124, from index `i` on. -/
def startFileWatchers (publisher : Publisher) :
    Nat → List (IndexedFileConfig R) → List (Option Chan) → Prog R Unit
  | _, [], _ => pure ()
  | i, file :: rest, commandChannels => do
    let c ← makeChan
    let commandChannels ← sliceSet commandChannels i (some c)
    match ← osOpen env file.Filename with
    | .error err => logFatal err
    | .ok f =>
      let fw ← newFileWatcher file (← sliceGet commandChannels i) publisher f
      call (.logPrintln ("Starting FileWatcher for filename=" ++ file.Filename))
      call (.goStart fw)
      startFileWatchers publisher (i + 1) rest commandChannels

/-- Go: lines 99-126 of `main`, the wiring: the database, the repositories, the
publisher, one file watcher per entry of `cfg.IndexedFiles`, the web server. -/
def wire : Prog R Unit := do
  let c ← getCfg
  let commandChannels : List (Option Chan) := List.replicate c.IndexedFiles.length none
  match ← sqlOpen env "sqlite3" (c.SQLite.DatabaseFile ++ "?cache=shared") with
  | .error err => logFatal (err ++ "\n")
  | .ok db =>
    setMaxOpenConns db 1
    match ← eventsSqliteRepository env db with
    | .error err => logFatal (err ++ "\n")
    | .ok repo =>
      let publisher ← batchedRepositoryPublisher repo
      match ← jobsSqliteRepository env db with
      | .error err => logFatal (err ++ "\n")
      | .ok jobRepo =>
        startFileWatchers env publisher 0 c.IndexedFiles commandChannels
        call (.newWeb repo jobRepo)
        call .serve
        match env.serve with
        | some err => logFatal err
        | none => stop .serving

/-- Go: `func main()`. -/
def main (cl : CommandLine) : Prog R Unit := do
  loadConfig compile cl
  wire env

/-- The whole process: the package-level initialiser, then `main`. -/
def run (cl : CommandLine) : Except Stop Unit × Option (World R) :=
  match cfg compile with
  | .error s => (.error s, none)
  | .ok c =>
    let r := main compile env cl (World.init c)
    (r.1, some r.2)

end

/-! ## Reading a command line and a run -/

/-- The value a string flag ends up with: its default `d`, or the value of its
last occurrence. -/
def lastValue (d : String) : List String → String
  | [] => d
  | v :: rest => lastValue v rest

/-- The values of the `-fieldextractor` occurrences, in order. -/
def CommandLine.fieldExtractors (cl : CommandLine) : List String :=
  cl.flags.filterMap (fun a => match a with | .fieldextractor v => some v | _ => none)

/-- The `-delimiter` value: `"\n"` unless given. -/
def CommandLine.delimiter (cl : CommandLine) : String :=
  lastValue "\n" (cl.flags.filterMap (fun a => match a with | .delimiter v => some v | _ => none))

/-- The `-timelayout` value: `"2006/01/02 15:04:05"` unless given. -/
def CommandLine.timelayout (cl : CommandLine) : String :=
  lastValue "2006/01/02 15:04:05"
    (cl.flags.filterMap (fun a => match a with | .timelayout v => some v | _ => none))

/-- The `-dbfile` value: `"logsuck.db"` unless given. -/
def CommandLine.dbfile (cl : CommandLine) : String :=
  lastValue "logsuck.db" (cl.flags.filterMap (fun a => match a with | .dbfile v => some v | _ => none))

/-- The `-webaddr` value: `":8080"` unless given. -/
def CommandLine.webaddr (cl : CommandLine) : String :=
  lastValue ":8080" (cl.flags.filterMap (fun a => match a with | .webaddr v => some v | _ => none))

section
variable {R : Type}

/-- The channels made, in order. -/
def chansMade (calls : List (Call R)) : List Chan :=
  calls.filterMap (fun c => match c with | .makeChan ch => some ch | _ => none)

/-- The files opened successfully, in order. -/
def filesOpened (calls : List (Call R)) : List File :=
  calls.filterMap (fun c => match c with | .osOpen _ (some f) => some f | _ => none)

/-- The file watchers constructed, in order. -/
def watchersCreated (calls : List (Call R)) : List (FileWatcher R) :=
  calls.filterMap (fun c => match c with | .newFileWatcher fw => some fw | _ => none)

/-- The file watchers started (`go fw.Start()`), in order. -/
def watchersStarted (calls : List (Call R)) : List (FileWatcher R) :=
  calls.filterMap (fun c => match c with | .goStart fw => some fw | _ => none)

/-- The publishers created, in order. -/
def publishersCreated (calls : List (Call R)) : List Publisher :=
  calls.filterMap (fun c => match c with | .batchedRepositoryPublisher _ p => some p | _ => none)

/-- Whether the call is `sql.Open`. -/
def Call.isSqlOpen : Call R → Bool
  | .sqlOpen _ _ _ => true
  | _ => false

/-- Whether the call is `db.SetMaxOpenConns`. -/
def Call.isSetMaxOpenConns : Call R → Bool
  | .setMaxOpenConns _ _ => true
  | _ => false

/-- Whether the call creates the event repository, the batched publisher or the
job repository. -/
def Call.isStoreUser : Call R → Bool
  | .eventsSqliteRepository _ _ => true
  | .batchedRepositoryPublisher _ _ => true
  | .jobsSqliteRepository _ _ => true
  | _ => false

/-- Whether the call is one the file-watcher loop makes: making a channel, opening
a file, constructing a watcher, logging its start, starting it. -/
def Call.inWatcherLoop : Call R → Bool
  | .makeChan _ => true
  | .osOpen _ _ => true
  | .newFileWatcher _ => true
  | .logPrintln _ => true
  | .goStart _ => true
  | _ => false

/-- Whether the call is `regexp.MustCompile`. -/
def Call.isMustCompile : Call R → Bool
  | .regexpMustCompile _ => true
  | _ => false

/-- The database handle a call is given, for the calls that take one. -/
def Call.dbUsed : Call R → Option DB
  | .setMaxOpenConns db _ => some db
  | .eventsSqliteRepository db _ => some db
  | .jobsSqliteRepository db _ => some db
  | _ => none

end

/-- The flag variables after `flag.Parse`. -/
def parsedFlags (cl : CommandLine) : FlagVars :=
  ⟨cl.dbfile, cl.delimiter, cl.fieldExtractors, cl.timelayout, cl.webaddr⟩

section
variable {R : Type} (compile : String → Except String R)

/-- The configuration a successful load leaves in `cfg`, starting from `c0`. -/
def loadedCfg (cl : CommandLine) (c0 : Config R) : Config R :=
  { IndexedFiles := cl.args.map
      (fun a => ⟨a, (compile cl.delimiter).toOption, 1000000000, cl.timelayout⟩)
    FieldExtractors :=
      if cl.fieldExtractors.length > 0 then cl.fieldExtractors.map (fun v => (compile v).toOption)
      else c0.FieldExtractors
    SQLite := if cl.dbfile ≠ "" then { c0.SQLite with DatabaseFile := cl.dbfile } else c0.SQLite
    Web := if cl.webaddr ≠ "" then { c0.Web with Address := cl.webaddr } else c0.Web }

/-- The calls of one round of the file-watcher loop for `file`, in the case where
the file opens; `n` is the first fresh identity. -/
def watcherStepCalls (publisher : Publisher) (n : Nat) (file : IndexedFileConfig R) :
    List (Call R) :=
  [ Call.makeChan ⟨n⟩,
    Call.osOpen file.Filename (some ⟨n + 1, file.Filename⟩),
    Call.newFileWatcher ⟨file, some ⟨n⟩, publisher, ⟨n + 1, file.Filename⟩⟩,
    Call.logPrintln ("Starting FileWatcher for filename=" ++ file.Filename),
    Call.goStart ⟨file, some ⟨n⟩, publisher, ⟨n + 1, file.Filename⟩⟩ ]

/-- The calls of the file-watcher loop for `files`, in the case where each of the
files opens; `n` is the first fresh identity. -/
def watcherCalls (publisher : Publisher) : Nat → List (IndexedFileConfig R) → List (Call R)
  | _, [] => []
  | n, file :: rest => watcherStepCalls publisher n file ++ watcherCalls publisher (n + 2) rest

/-- The calls that set up the store, in the case where the database and both
repositories open; `n` is the first fresh identity. -/
def storeCalls (dataSourceName : String) (n : Nat) : List (Call R) :=
  [ Call.sqlOpen "sqlite3" dataSourceName (some ⟨n⟩),
    Call.setMaxOpenConns ⟨n⟩ 1,
    Call.eventsSqliteRepository ⟨n⟩ (some ⟨n + 1, ⟨n⟩⟩),
    Call.batchedRepositoryPublisher ⟨n + 1, ⟨n⟩⟩ ⟨n + 2, ⟨n + 1, ⟨n⟩⟩⟩,
    Call.jobsSqliteRepository ⟨n⟩ (some ⟨n + 3, ⟨n⟩⟩) ]

/-- The calls of the wiring, in the case where the database, both repositories
and every file open; `n` is the first fresh identity. -/
def wireCalls (dataSourceName : String) (n : Nat) (files : List (IndexedFileConfig R)) :
    List (Call R) :=
  storeCalls dataSourceName n ++
    watcherCalls ⟨n + 2, ⟨n + 1, ⟨n⟩⟩⟩ (n + 4) files ++
    [ Call.newWeb ⟨n + 1, ⟨n⟩⟩ ⟨n + 3, ⟨n⟩⟩, Call.serve ]

/-- The calls a successful load makes. -/
def loadCalls (cl : CommandLine) : List (Call R) :=
  cl.fieldExtractors.map Call.regexpCompile ++
    List.replicate cl.args.length (Call.regexpMustCompile cl.delimiter)

end

/-! ## The embedded `regexp` fragment as the linked library -/

/-- Go: `regexp.Compile` as `main` sees it: the compiled expression, or the text of
the error. -/
def goCompile (expr : String) : Except String regexp.Regexp :=
  match regexp.Compile expr with
  | .ok re => .ok re
  | .error e => .error e.message

/-- The first variant of the usage text (line 63): an expression with a single,
named capture group. -/
def isNamedGroupRule (re : regexp.Regexp) : Bool :=
  decide (re.NumSubexp = 1) && (re.SubexpNames.drop 1).all (fun n => n != "")

/-- The second variant of the usage text (line 64): an expression with two unnamed
capture groups. -/
def isTwoGroupRule (re : regexp.Regexp) : Bool :=
  decide (re.NumSubexp = 2) && (re.SubexpNames.drop 1).all (fun n => n == "")

/-- The first pattern the usage text names as a default (line 67). -/
def usageDefaultFieldExtractor : String := "(\\w+)=(\\w+)"

/-- The second pattern the usage text names as a default (line 67). -/
def usageDefaultTimeExtractor : String :=
  "(?P<_time>\\d\\d\\d\\d/\\d\\d/\\d\\d \\d\\d:\\d\\d:\\d\\d.\\d\\d\\d\\d\\d\\d)"

/-- An outside in which every call succeeds and `Serve` does not return. -/
def Env.allOk : Env :=
  { sqlOpen := fun _ _ => none
    eventsSqliteRepository := fun _ => none
    jobsSqliteRepository := fun _ => none
    osOpen := fun _ => none
    serve := none }

/-- An outside in which `jobs.SqliteRepository` returns an error and every other
call succeeds. -/
def Env.jobsFail : Env :=
  { Env.allOk with jobsSqliteRepository := fun _ => some "no such table: Jobs" }

/-- Sets the field `name` to `value`: a later value replaces an earlier one. -/
def setField (fields : List (String × String)) (name value : String) : List (String × String) :=
  match fields with
  | [] => [(name, value)]
  | (n, v) :: rest => if n = name then (n, value) :: rest else (n, v) :: setField rest name value

/-- The fields one rule draws from its matches, added to `fields`. -/
def ruleFields (re : regexp.Regexp) (fields : List (String × String)) :
    List (List String) → List (String × String)
  | [] => fields
  | m :: rest =>
    if isNamedGroupRule re then
      ruleFields re (setField fields (re.SubexpNames.getD 1 "") (m.getD 1 "")) rest
    else if isTwoGroupRule re then
      ruleFields re (setField fields (m.getD 1 "") (m.getD 2 "")) rest
    else ruleFields re fields rest

/-- Modelled from the spec: the field extractor (package `internal/parser`) is not
among the sources.  Section 4.2: each configured rule is matched against the full
raw text; a rule with a single named group gives, on a match, the field named by
the group with the captured text as value; a rule with two groups gives the field
named by the first group's text with the second group's text as value; rules are
applied in configured order and a later value for a name replaces an earlier one;
a rule that does not match contributes nothing.  Section 8 asks for a field for
every match, so all matches of a rule are used.  `none` is exhausted fuel. -/
def extractFields (rules : List regexp.Regexp) (text : String) : Option (List (String × String)) :=
  rules.foldl
    (fun acc re =>
      match acc, re.FindAllStringSubmatch text with
      | some fields, some ms => some (ruleFields re fields ms)
      | _, _ => none)
    (some [])

/-- Whether `v` compiles. -/
def compiles {R : Type} (compile : String → Except String R) (v : String) : Bool :=
  (compile v).toOption.isSome

/-- The configuration the initialiser of `cfg` builds with the embedded `regexp`
fragment (the zero configuration, had the initialiser panicked). -/
def builtinCfg : Config regexp.Regexp :=
  match cfg goCompile with
  | .ok c => c
  | .error _ => ⟨[], [], ⟨""⟩, ⟨false, ""⟩⟩

/-! ## Lemmas about the stages of `main` -/

open regexp

section
variable {R : Type}

@[simp] theorem Prog.pure_apply {α : Type} (a : α) (w : World R) :
    (pure a : Prog R α) w = (.ok a, w) := rfl

@[simp] theorem Prog.bind_apply {α β : Type} (m : Prog R α) (f : α → Prog R β) (w : World R) :
    (m >>= f) w = match m w with
      | (.ok a, w1) => f a w1
      | (.error e, w1) => (.error e, w1) := rfl

theorem set_length_append {α : Type} (pre : List α) (a b : α) (l : List α) :
    (pre ++ a :: l).set pre.length b = pre ++ b :: l := by
  induction pre with
  | nil => rfl
  | cons x xs ih => simp [ih]

theorem compileFieldExtractors_ok (compile : String → Except String R) :
    ∀ (vs : List String) (pre : List (Option R)) (w : World R),
      (∀ v ∈ vs, ∃ r, compile v = .ok r) →
      w.cfg.FieldExtractors = pre ++ List.replicate vs.length none →
      compileFieldExtractors compile pre.length vs w =
        (.ok (), { w with
          cfg := { w.cfg with FieldExtractors := pre ++ vs.map (fun v => (compile v).toOption) }
          calls := w.calls ++ vs.map Call.regexpCompile }) := by
  intro vs
  induction vs with
  | nil =>
    intro pre w _ hw
    simp at hw
    simp [compileFieldExtractors, ← hw]
  | cons v rest ih =>
    intro pre w hall hw
    obtain ⟨r, hr⟩ := hall v (by simp)
    have hlt : pre.length < w.cfg.FieldExtractors.length := by
      rw [hw]; simp
    have hset : w.cfg.FieldExtractors.set pre.length (some r)
        = (pre ++ [some r]) ++ List.replicate rest.length none := by
      rw [hw]; simp [List.replicate_succ, set_length_append]
    have := ih (pre ++ [some r])
      { w with cfg := { w.cfg with FieldExtractors := w.cfg.FieldExtractors.set pre.length (some r) }
               calls := w.calls ++ [Call.regexpCompile v] }
      (fun u hu => hall u (by simp [hu])) hset
    simp only [List.length_append, List.length_singleton] at this
    simp [compileFieldExtractors, regexpCompile, call, hr, getCfg, sliceSet, hlt, setCfg, this,
      Except.toOption]

theorem compileFieldExtractors_fatal (compile : String → Except String R) (v : String)
    (post : List String) (err : String) (hv : compile v = .error err) :
    ∀ (good : List String) (pre : List (Option R)) (w : World R),
      (∀ u ∈ good, ∃ r, compile u = .ok r) →
      w.cfg.FieldExtractors = pre ++ List.replicate (good ++ v :: post).length none →
      compileFieldExtractors compile pre.length (good ++ v :: post) w =
        (.error (.fatal ("failed to compile regex \x27" ++ v ++ "\x27: " ++ err ++ "\n")),
          { w with
            cfg := { w.cfg with
              FieldExtractors := pre ++ good.map (fun u => (compile u).toOption) ++
                List.replicate (post.length + 1) none }
            calls := w.calls ++ (good ++ [v]).map Call.regexpCompile }) := by
  intro good
  induction good with
  | nil =>
    intro pre w _ hw
    simp at hw
    simp [compileFieldExtractors, regexpCompile, call, hv, logFatal, stop, ← hw]
  | cons u rest ih =>
    intro pre w hall hw
    obtain ⟨r, hr⟩ := hall u (by simp)
    have hlt : pre.length < w.cfg.FieldExtractors.length := by
      rw [hw]; simp
    have hset : w.cfg.FieldExtractors.set pre.length (some r)
        = (pre ++ [some r]) ++ List.replicate (rest ++ v :: post).length none := by
      rw [hw]; simp [List.replicate_succ, set_length_append]
    have := ih (pre ++ [some r])
      { w with cfg := { w.cfg with FieldExtractors := w.cfg.FieldExtractors.set pre.length (some r) }
               calls := w.calls ++ [Call.regexpCompile u] }
      (fun x hx => hall x (by simp [hx])) hset
    simp only [List.length_append, List.length_singleton] at this
    simp [compileFieldExtractors, regexpCompile, call, hr, getCfg, sliceSet, hlt, setCfg, this,
      Except.toOption]

theorem buildIndexedFiles_ok (compile : String → Except String R) (d : R) :
    ∀ (args : List String) (pre : List (IndexedFileConfig R)) (w : World R),
      compile w.flags.eventDelimiterFlag = .ok d →
      w.cfg.IndexedFiles = pre ++ List.replicate args.length IndexedFileConfig.zero →
      buildIndexedFiles compile pre.length args w =
        (.ok (), { w with
          cfg := { w.cfg with
            IndexedFiles := pre ++ args.map (fun a => ⟨a, some d, 1000000000, w.flags.timeLayoutFlag⟩) }
          calls := w.calls ++
            List.replicate args.length (Call.regexpMustCompile w.flags.eventDelimiterFlag) }) := by
  intro args
  induction args with
  | nil =>
    intro pre w _ hw
    simp at hw
    simp [buildIndexedFiles, ← hw]
  | cons a rest ih =>
    intro pre w hd hw
    have hlt : pre.length < w.cfg.IndexedFiles.length := by
      rw [hw]; simp
    have hset : w.cfg.IndexedFiles.set pre.length ⟨a, some d, 1000000000, w.flags.timeLayoutFlag⟩
        = (pre ++ [⟨a, some d, 1000000000, w.flags.timeLayoutFlag⟩]) ++
            List.replicate rest.length IndexedFileConfig.zero := by
      rw [hw]; simp [List.replicate_succ, set_length_append]
    have := ih (pre ++ [⟨a, some d, 1000000000, w.flags.timeLayoutFlag⟩])
      { w with
        cfg := { w.cfg with
          IndexedFiles := w.cfg.IndexedFiles.set pre.length ⟨a, some d, 1000000000, w.flags.timeLayoutFlag⟩ }
        calls := w.calls ++ [Call.regexpMustCompile w.flags.eventDelimiterFlag] }
      hd hset
    simp only [List.length_append, List.length_singleton] at this
    simp [buildIndexedFiles, regexpMustCompile, mustCompile, call, hd, getCfg, getFlags, sliceSet,
      hlt, setCfg, this, List.replicate_succ]

theorem buildIndexedFiles_panic (compile : String → Except String R) (a : String)
    (rest : List String) (i : Nat) (w : World R) (err : String)
    (hd : compile w.flags.eventDelimiterFlag = .error err) :
    buildIndexedFiles compile i (a :: rest) w =
      (.error (.mustCompilePanic w.flags.eventDelimiterFlag err),
        { w with calls := w.calls ++ [Call.regexpMustCompile w.flags.eventDelimiterFlag] }) := by
  simp [buildIndexedFiles, regexpMustCompile, mustCompile, call, hd, getFlags, stop]

theorem lastValue_append (d : String) (xs : List String) (v : String) :
    lastValue d (xs ++ [v]) = v := by
  induction xs generalizing d with
  | nil => rfl
  | cons x xs ih => simpa [lastValue] using ih x

theorem flagParseVars_eq : ∀ (flags : List FlagArg) (f : FlagVars),
    flagParseVars flags f = .ok
      { databaseFileFlag := lastValue f.databaseFileFlag
          (flags.filterMap (fun a => match a with | .dbfile v => some v | _ => none))
        eventDelimiterFlag := lastValue f.eventDelimiterFlag
          (flags.filterMap (fun a => match a with | .delimiter v => some v | _ => none))
        fieldExtractorFlags := f.fieldExtractorFlags ++
          flags.filterMap (fun a => match a with | .fieldextractor v => some v | _ => none)
        timeLayoutFlag := lastValue f.timeLayoutFlag
          (flags.filterMap (fun a => match a with | .timelayout v => some v | _ => none))
        webAddrFlag := lastValue f.webAddrFlag
          (flags.filterMap (fun a => match a with | .webaddr v => some v | _ => none)) } := by
  intro flags
  induction flags with
  | nil => intro f; simp [flagParseVars, lastValue]
  | cons a rest ih =>
    intro f
    cases a <;> simp [flagParseVars, flagSet, flagStringArray.Set, ih, lastValue]

theorem flagsStage (cl : CommandLine) (c0 : Config R) :
    (registerFlags >>= fun _ => flagParse cl.flags) (World.init c0) =
      (.ok (), { World.init c0 with flags := parsedFlags cl }) := by
  simp [registerFlags, flagParse, getFlags, setFlags, flagParseVars_eq, World.init, FlagVars.zero,
    parsedFlags, CommandLine.dbfile, CommandLine.delimiter, CommandLine.fieldExtractors,
    CommandLine.timelayout, CommandLine.webaddr]

theorem loadDatabaseFile_eq (w : World R) :
    loadDatabaseFile w = (.ok (), { w with cfg := { w.cfg with
      SQLite := if w.flags.databaseFileFlag ≠ "" then
        { w.cfg.SQLite with DatabaseFile := w.flags.databaseFileFlag } else w.cfg.SQLite } }) := by
  by_cases h : w.flags.databaseFileFlag = "" <;> simp [loadDatabaseFile, getFlags, getCfg, setCfg, h]

theorem loadWebAddr_eq (w : World R) :
    loadWebAddr w = (.ok (), { w with cfg := { w.cfg with
      Web := if w.flags.webAddrFlag ≠ "" then
        { w.cfg.Web with Address := w.flags.webAddrFlag } else w.cfg.Web } }) := by
  by_cases h : w.flags.webAddrFlag = "" <;> simp [loadWebAddr, getFlags, getCfg, setCfg, h]

theorem loadFieldExtractors_ok (compile : String → Except String R) (w : World R)
    (hall : ∀ v ∈ w.flags.fieldExtractorFlags, ∃ r, compile v = .ok r) :
    loadFieldExtractors compile w = (.ok (), { w with
      cfg := { w.cfg with
        FieldExtractors := if w.flags.fieldExtractorFlags.length > 0 then
          w.flags.fieldExtractorFlags.map (fun v => (compile v).toOption) else w.cfg.FieldExtractors }
      calls := w.calls ++ w.flags.fieldExtractorFlags.map Call.regexpCompile }) := by
  by_cases h : w.flags.fieldExtractorFlags = []
  · simp [loadFieldExtractors, getFlags, h]
  · have hpos : 0 < w.flags.fieldExtractorFlags.length := List.length_pos.mpr h
    have := compileFieldExtractors_ok compile w.flags.fieldExtractorFlags []
      { w with cfg := { w.cfg with
          FieldExtractors := List.replicate w.flags.fieldExtractorFlags.length none } }
      hall (by simp)
    simp only [List.length_nil] at this
    simp [loadFieldExtractors, getFlags, getCfg, setCfg, hpos, this]

theorem loadFieldExtractors_fatal (compile : String → Except String R) (w : World R)
    (good : List String) (v : String) (post : List String) (err : String)
    (hsplit : w.flags.fieldExtractorFlags = good ++ v :: post)
    (hgood : ∀ u ∈ good, ∃ r, compile u = .ok r) (hv : compile v = .error err) :
    loadFieldExtractors compile w =
      (.error (.fatal ("failed to compile regex \x27" ++ v ++ "\x27: " ++ err ++ "\n")),
        { w with
          cfg := { w.cfg with
            FieldExtractors := good.map (fun u => (compile u).toOption) ++
              List.replicate (post.length + 1) none }
          calls := w.calls ++ (good ++ [v]).map Call.regexpCompile }) := by
  have hpos : 0 < w.flags.fieldExtractorFlags.length := by rw [hsplit]; simp
  have := compileFieldExtractors_fatal compile v post err hv good []
    { w with cfg := { w.cfg with
        FieldExtractors := List.replicate w.flags.fieldExtractorFlags.length none } }
    hgood (by simp [hsplit])
  simp only [List.length_nil] at this
  rw [← hsplit] at this
  simp [loadFieldExtractors, getFlags, getCfg, setCfg, hpos, this]

theorem loadIndexedFiles_ok (compile : String → Except String R) (args : List String)
    (w : World R) (hd : args = [] ∨ ∃ d, compile w.flags.eventDelimiterFlag = .ok d) :
    loadIndexedFiles compile args w = (.ok (), { w with
      cfg := { w.cfg with
        IndexedFiles := args.map (fun a =>
          ⟨a, (compile w.flags.eventDelimiterFlag).toOption, 1000000000, w.flags.timeLayoutFlag⟩) }
      calls := w.calls ++
        List.replicate args.length (Call.regexpMustCompile w.flags.eventDelimiterFlag) }) := by
  rcases hd with h | ⟨d, hd⟩
  · subst h
    simp [loadIndexedFiles, getCfg, setCfg, buildIndexedFiles]
  · have := buildIndexedFiles_ok compile d args []
      { w with cfg := { w.cfg with
          IndexedFiles := List.replicate args.length IndexedFileConfig.zero } }
      hd (by simp)
    simp only [List.length_nil] at this
    simp [loadIndexedFiles, getCfg, setCfg, this, hd, Except.toOption]

theorem loadIndexedFiles_panic (compile : String → Except String R) (a : String)
    (rest : List String) (w : World R) (err : String)
    (hd : compile w.flags.eventDelimiterFlag = .error err) :
    loadIndexedFiles compile (a :: rest) w =
      (.error (.mustCompilePanic w.flags.eventDelimiterFlag err),
        { w with
          cfg := { w.cfg with
            IndexedFiles := List.replicate (rest.length + 1) IndexedFileConfig.zero }
          calls := w.calls ++ [Call.regexpMustCompile w.flags.eventDelimiterFlag] }) := by
  have := buildIndexedFiles_panic compile a rest 0
    { w with cfg := { w.cfg with
        IndexedFiles := List.replicate (rest.length + 1) IndexedFileConfig.zero } } err hd
  simp [loadIndexedFiles, getCfg, setCfg, this]

theorem loadConfig_unfold (compile : String → Except String R) (cl : CommandLine) (c0 : Config R) :
    loadConfig compile cl (World.init c0) =
      (loadDatabaseFile >>= fun _ => loadFieldExtractors compile >>= fun _ =>
        loadWebAddr >>= fun _ => loadIndexedFiles compile cl.args)
        { World.init c0 with flags := parsedFlags cl } := by
  have h := flagsStage cl c0
  simp only [Prog.bind_apply] at h
  simp only [loadConfig, Prog.bind_apply]
  revert h
  cases hr : registerFlags (World.init c0) with
  | mk r w1 =>
    cases r with
    | error e => intro h; simp at h
    | ok u =>
      simp only
      intro h
      rw [h]

theorem loadConfig_ok (compile : String → Except String R) (cl : CommandLine) (c0 : Config R)
    (hall : ∀ v ∈ cl.fieldExtractors, ∃ r, compile v = .ok r)
    (hd : cl.args = [] ∨ ∃ d, compile cl.delimiter = .ok d) :
    loadConfig compile cl (World.init c0) =
      (.ok (), ⟨loadedCfg compile cl c0, parsedFlags cl, loadCalls cl, 0⟩) := by
  rw [loadConfig_unfold]
  simp only [Prog.bind_apply, loadDatabaseFile_eq]
  rw [loadFieldExtractors_ok compile _ hall]
  simp only [loadWebAddr_eq]
  rw [loadIndexedFiles_ok compile _ _ hd]
  simp [World.init, parsedFlags, loadedCfg, loadCalls]

theorem loadConfig_fatal (compile : String → Except String R) (cl : CommandLine) (c0 : Config R)
    (good : List String) (v : String) (post : List String) (err : String)
    (hsplit : cl.fieldExtractors = good ++ v :: post)
    (hgood : ∀ u ∈ good, ∃ r, compile u = .ok r) (hv : compile v = .error err) :
    loadConfig compile cl (World.init c0) =
      (.error (.fatal ("failed to compile regex \x27" ++ v ++ "\x27: " ++ err ++ "\n")),
        ⟨{ c0 with
            FieldExtractors := good.map (fun u => (compile u).toOption) ++
              List.replicate (post.length + 1) none
            SQLite := if cl.dbfile ≠ "" then { c0.SQLite with DatabaseFile := cl.dbfile }
              else c0.SQLite },
          parsedFlags cl, (good ++ [v]).map Call.regexpCompile, 0⟩) := by
  rw [loadConfig_unfold]
  simp only [Prog.bind_apply, loadDatabaseFile_eq]
  rw [loadFieldExtractors_fatal compile _ good v post err (by simpa [parsedFlags] using hsplit)
    hgood hv]
  simp [World.init, parsedFlags]

theorem loadConfig_panic (compile : String → Except String R) (cl : CommandLine) (c0 : Config R)
    (a : String) (rest : List String) (err : String)
    (hall : ∀ v ∈ cl.fieldExtractors, ∃ r, compile v = .ok r)
    (hargs : cl.args = a :: rest) (hd : compile cl.delimiter = .error err) :
    loadConfig compile cl (World.init c0) =
      (.error (.mustCompilePanic cl.delimiter err),
        ⟨{ loadedCfg compile cl c0 with
            IndexedFiles := List.replicate cl.args.length IndexedFileConfig.zero },
          parsedFlags cl,
          cl.fieldExtractors.map Call.regexpCompile ++ [Call.regexpMustCompile cl.delimiter], 0⟩) := by
  rw [loadConfig_unfold]
  simp only [Prog.bind_apply, loadDatabaseFile_eq]
  rw [loadFieldExtractors_ok compile _ hall]
  simp only [loadWebAddr_eq]
  rw [hargs, loadIndexedFiles_panic compile a rest _ err (by simpa [parsedFlags] using hd)]
  simp [World.init, parsedFlags, loadedCfg]

theorem get?_length_append {α : Type} (pre : List α) (a : α) (l : List α) :
    (pre ++ a :: l).get? pre.length = some a := by
  induction pre with
  | nil => rfl
  | cons x xs ih => simpa using ih

theorem startFileWatchers_step (env : Env) (publisher : Publisher) (i : Nat)
    (file : IndexedFileConfig R) (rest : List (IndexedFileConfig R)) (cc : List (Option Chan))
    (w : World R) (hlt : i < cc.length) (ho : env.osOpen file.Filename = none) :
    startFileWatchers env publisher i (file :: rest) cc w =
      startFileWatchers env publisher (i + 1) rest (cc.set i (some ⟨w.next⟩))
        { w with
          calls := w.calls ++ watcherStepCalls publisher w.next file
          next := w.next + 2 } := by
  simp [startFileWatchers, makeChan, fresh, call, sliceSet, sliceGet, osOpen, ho, newFileWatcher,
    hlt, watcherStepCalls]

theorem startFileWatchers_ok (env : Env) (publisher : Publisher) :
    ∀ (files : List (IndexedFileConfig R)) (pre : List (Option Chan)) (w : World R),
      (∀ f ∈ files, env.osOpen f.Filename = none) →
      startFileWatchers env publisher pre.length files
          (pre ++ List.replicate files.length none) w =
        (.ok (), { w with
          calls := w.calls ++ watcherCalls publisher w.next files
          next := w.next + 2 * files.length }) := by
  intro files
  induction files with
  | nil => intro pre w _; simp [startFileWatchers, watcherCalls]
  | cons file rest ih =>
    intro pre w hopen
    have ho : env.osOpen file.Filename = none := hopen file (by simp)
    have hset : (pre ++ List.replicate (rest.length + 1) (none : Option Chan)).set pre.length
        (some ⟨w.next⟩) = (pre ++ [some ⟨w.next⟩]) ++ List.replicate rest.length none := by
      simp only [List.replicate_succ, set_length_append, List.append_assoc, List.singleton_append]
    have hlen : (pre ++ [some (Chan.mk w.next)]).length = pre.length + 1 := by simp
    rw [List.length_cons, startFileWatchers_step env publisher pre.length file rest _ w (by simp) ho,
      hset, ← hlen, ih _ _ (fun f hf => hopen f (by simp [hf]))]
    simp only [watcherCalls, List.append_assoc, Nat.mul_succ]
    congr 2
    omega

theorem wire_store_ok (env : Env) (w : World R)
    (hsql : env.sqlOpen "sqlite3" (w.cfg.SQLite.DatabaseFile ++ "?cache=shared") = none)
    (hev : env.eventsSqliteRepository ⟨w.next⟩ = none)
    (hjobs : env.jobsSqliteRepository ⟨w.next⟩ = none) :
    wire env w =
      match startFileWatchers env ⟨w.next + 2, ⟨w.next + 1, ⟨w.next⟩⟩⟩ 0 w.cfg.IndexedFiles
        (List.replicate w.cfg.IndexedFiles.length none)
        { w with
          calls := w.calls ++ storeCalls (w.cfg.SQLite.DatabaseFile ++ "?cache=shared") w.next
          next := w.next + 4 } with
      | (.ok _, w1) =>
        (.error (match env.serve with | some err => Stop.fatal err | none => Stop.serving),
          { w1 with calls := w1.calls ++
              [Call.newWeb ⟨w.next + 1, ⟨w.next⟩⟩ ⟨w.next + 3, ⟨w.next⟩⟩, Call.serve] })
      | (.error e, w1) => (.error e, w1) := by
  cases hs : env.serve <;>
    simp [wire, getCfg, sqlOpen, hsql, fresh, call, setMaxOpenConns, eventsSqliteRepository,
      hev, batchedRepositoryPublisher, jobsSqliteRepository, hjobs, hs, logFatal, stop, storeCalls,
      Nat.add_assoc] <;>
    generalize startFileWatchers env _ 0 _ _ _ = r <;>
    rcases r with ⟨_ | _, _⟩ <;> rfl

theorem wire_ok (env : Env) (w : World R)
    (hsql : env.sqlOpen "sqlite3" (w.cfg.SQLite.DatabaseFile ++ "?cache=shared") = none)
    (hev : env.eventsSqliteRepository ⟨w.next⟩ = none)
    (hjobs : env.jobsSqliteRepository ⟨w.next⟩ = none)
    (hopen : ∀ f ∈ w.cfg.IndexedFiles, env.osOpen f.Filename = none) :
    wire env w =
      (.error (match env.serve with | some err => Stop.fatal err | none => Stop.serving),
        { w with
          calls := w.calls ++
            wireCalls (w.cfg.SQLite.DatabaseFile ++ "?cache=shared") w.next w.cfg.IndexedFiles
          next := w.next + 4 + 2 * w.cfg.IndexedFiles.length }) := by
  have hloop := startFileWatchers_ok env ⟨w.next + 2, ⟨w.next + 1, ⟨w.next⟩⟩⟩ w.cfg.IndexedFiles []
    { w with
      calls := w.calls ++ storeCalls (w.cfg.SQLite.DatabaseFile ++ "?cache=shared") w.next
      next := w.next + 4 } hopen
  simp only [List.length_nil, List.nil_append] at hloop
  rw [wire_store_ok env w hsql hev hjobs, hloop]
  simp [wireCalls]

theorem startFileWatchers_frame (env : Env) (publisher : Publisher) :
    ∀ (files : List (IndexedFileConfig R)) (i : Nat) (cc : List (Option Chan)) (w : World R),
      (startFileWatchers env publisher i files cc w).2.cfg = w.cfg ∧
      ∃ extra, (startFileWatchers env publisher i files cc w).2.calls = w.calls ++ extra ∧
        ∀ c ∈ extra, c.inWatcherLoop = true := by
  intro files
  induction files with
  | nil => intro i cc w; exact ⟨rfl, [], by simp [startFileWatchers], by simp⟩
  | cons file rest ih =>
    intro i cc w
    by_cases hlt : i < cc.length
    · cases ho : env.osOpen file.Filename with
      | none =>
        rw [startFileWatchers_step env publisher i file rest cc w hlt ho]
        obtain ⟨hcfg, extra, hcalls, hall⟩ := ih (i + 1) (cc.set i (some ⟨w.next⟩))
          { w with
            calls := w.calls ++ watcherStepCalls publisher w.next file
            next := w.next + 2 }
        refine ⟨hcfg, watcherStepCalls publisher w.next file ++ extra,
          by simp only [hcalls, List.append_assoc], ?_⟩
        intro c hc
        rcases List.mem_append.mp hc with h | h
        · simp [watcherStepCalls] at h
          rcases h with h | h | h | h | h <;> subst h <;> rfl
        · exact hall c h
      | some err =>
        refine ⟨?_, [Call.makeChan ⟨w.next⟩, Call.osOpen file.Filename none], ?_, ?_⟩
        · simp [startFileWatchers, makeChan, fresh, call, sliceSet, osOpen, ho, hlt, logFatal, stop]
        · simp [startFileWatchers, makeChan, fresh, call, sliceSet, osOpen, ho, hlt, logFatal, stop]
        · intro c hc
          simp at hc
          rcases hc with h | h <;> subst h <;> rfl
    · refine ⟨?_, [Call.makeChan ⟨w.next⟩], ?_, ?_⟩
      · simp [startFileWatchers, makeChan, fresh, call, sliceSet, hlt, stop]
      · simp [startFileWatchers, makeChan, fresh, call, sliceSet, hlt, stop]
      · intro c hc
        simp at hc
        subst hc
        rfl

theorem inWatcherLoop_props (c : Call R) (h : c.inWatcherLoop = true) :
    c.isSqlOpen = false ∧ c.isSetMaxOpenConns = false ∧ c.isStoreUser = false ∧
      c.isMustCompile = false ∧ c.dbUsed = none := by
  cases c <;> simp_all [Call.inWatcherLoop, Call.isSqlOpen, Call.isSetMaxOpenConns,
    Call.isStoreUser, Call.isMustCompile, Call.dbUsed]

theorem wire_shape (env : Env) (w : World R) :
    (wire env w).2.cfg = w.cfg ∧
    ∃ res post, (wire env w).2.calls =
        w.calls ++ Call.sqlOpen "sqlite3" (w.cfg.SQLite.DatabaseFile ++ "?cache=shared") res :: post ∧
      (res = none → post = []) ∧
      ∀ db, res = some db → ∃ post1, post = Call.setMaxOpenConns db 1 :: post1 ∧
        ∀ c ∈ post1, c.isSqlOpen = false ∧ c.isSetMaxOpenConns = false ∧ c.isMustCompile = false ∧
          ∀ d, c.dbUsed = some d → d = db := by
  cases hsql : env.sqlOpen "sqlite3" (w.cfg.SQLite.DatabaseFile ++ "?cache=shared") with
  | some err =>
    refine ⟨?_, none, [], ?_, fun _ => rfl, fun db h => by simp at h⟩
    · simp [wire, getCfg, sqlOpen, hsql, call, logFatal, stop]
    · simp [wire, getCfg, sqlOpen, hsql, call, logFatal, stop]
  | none =>
    cases hev : env.eventsSqliteRepository ⟨w.next⟩ with
    | some err =>
      refine ⟨?_, some ⟨w.next⟩, [Call.setMaxOpenConns ⟨w.next⟩ 1,
        Call.eventsSqliteRepository ⟨w.next⟩ none], ?_, fun h => by simp at h, ?_⟩
      · simp [wire, getCfg, sqlOpen, hsql, fresh, call, setMaxOpenConns, eventsSqliteRepository,
          hev, logFatal, stop]
      · simp [wire, getCfg, sqlOpen, hsql, fresh, call, setMaxOpenConns, eventsSqliteRepository,
          hev, logFatal, stop]
      · intro db hdb
        simp at hdb
        subst hdb
        refine ⟨_, rfl, ?_⟩
        intro c hc
        simp at hc
        subst hc
        simp [Call.isSqlOpen, Call.isSetMaxOpenConns, Call.isMustCompile, Call.dbUsed]
    | none =>
      cases hjobs : env.jobsSqliteRepository ⟨w.next⟩ with
      | some err =>
        refine ⟨?_, some ⟨w.next⟩, [Call.setMaxOpenConns ⟨w.next⟩ 1,
          Call.eventsSqliteRepository ⟨w.next⟩ (some ⟨w.next + 1, ⟨w.next⟩⟩),
          Call.batchedRepositoryPublisher ⟨w.next + 1, ⟨w.next⟩⟩ ⟨w.next + 2, ⟨w.next + 1, ⟨w.next⟩⟩⟩,
          Call.jobsSqliteRepository ⟨w.next⟩ none], ?_, fun h => by simp at h, ?_⟩
        · simp [wire, getCfg, sqlOpen, hsql, fresh, call, setMaxOpenConns, eventsSqliteRepository,
            hev, batchedRepositoryPublisher, jobsSqliteRepository, hjobs, logFatal, stop]
        · simp [wire, getCfg, sqlOpen, hsql, fresh, call, setMaxOpenConns, eventsSqliteRepository,
            hev, batchedRepositoryPublisher, jobsSqliteRepository, hjobs, logFatal, stop]
        · intro db hdb
          simp at hdb
          subst hdb
          refine ⟨_, rfl, ?_⟩
          intro c hc
          simp at hc
          rcases hc with h | h | h <;> subst h <;>
            simp [Call.isSqlOpen, Call.isSetMaxOpenConns, Call.isMustCompile, Call.dbUsed]
      | none =>
        obtain ⟨hcfg, extra, hcalls, hloop⟩ := startFileWatchers_frame env
          ⟨w.next + 2, ⟨w.next + 1, ⟨w.next⟩⟩⟩ w.cfg.IndexedFiles 0
          (List.replicate w.cfg.IndexedFiles.length none)
          { w with
            calls := w.calls ++ storeCalls (w.cfg.SQLite.DatabaseFile ++ "?cache=shared") w.next
            next := w.next + 4 }
        rw [wire_store_ok env w hsql hev hjobs]
        revert hcfg hcalls
        cases hr : startFileWatchers env ⟨w.next + 2, ⟨w.next + 1, ⟨w.next⟩⟩⟩ 0 w.cfg.IndexedFiles
            (List.replicate w.cfg.IndexedFiles.length none) _ with
        | mk r w1 =>
          intro hcfg hcalls
          simp only at hcfg hcalls
          have hstore : ∀ c ∈ [Call.eventsSqliteRepository ⟨w.next⟩ (some ⟨w.next + 1, ⟨w.next⟩⟩),
              Call.batchedRepositoryPublisher ⟨w.next + 1, ⟨w.next⟩⟩
                ⟨w.next + 2, ⟨w.next + 1, ⟨w.next⟩⟩⟩,
              (Call.jobsSqliteRepository ⟨w.next⟩ (some ⟨w.next + 3, ⟨w.next⟩⟩) : Call R)],
              c.isSqlOpen = false ∧ c.isSetMaxOpenConns = false ∧ c.isMustCompile = false ∧
                ∀ d, c.dbUsed = some d → d = ⟨w.next⟩ := by
            intro c hc
            simp at hc
            rcases hc with h | h | h <;> subst h <;>
              simp [Call.isSqlOpen, Call.isSetMaxOpenConns, Call.isMustCompile, Call.dbUsed]
          have hextra : ∀ c ∈ extra, c.isSqlOpen = false ∧ c.isSetMaxOpenConns = false ∧
              c.isMustCompile = false ∧ ∀ d, c.dbUsed = some d → d = (⟨w.next⟩ : DB) := by
            intro c hc
            obtain ⟨h1, h2, _, h4, h5⟩ := inWatcherLoop_props c (hloop c hc)
            exact ⟨h1, h2, h4, fun d hd => by simp [h5] at hd⟩
          cases r with
          | error e =>
            refine ⟨hcfg, some ⟨w.next⟩, Call.setMaxOpenConns ⟨w.next⟩ 1 ::
              ([Call.eventsSqliteRepository ⟨w.next⟩ (some ⟨w.next + 1, ⟨w.next⟩⟩),
                Call.batchedRepositoryPublisher ⟨w.next + 1, ⟨w.next⟩⟩
                  ⟨w.next + 2, ⟨w.next + 1, ⟨w.next⟩⟩⟩,
                Call.jobsSqliteRepository ⟨w.next⟩ (some ⟨w.next + 3, ⟨w.next⟩⟩)] ++ extra),
              by simp [hcalls, storeCalls], fun h => by simp at h, ?_⟩
            intro db hdb
            simp at hdb
            subst hdb
            refine ⟨_, rfl, ?_⟩
            intro c hc
            rcases List.mem_append.mp hc with h | h
            · exact hstore c h
            · exact hextra c h
          | ok u =>
            refine ⟨hcfg, some ⟨w.next⟩, Call.setMaxOpenConns ⟨w.next⟩ 1 ::
              ([Call.eventsSqliteRepository ⟨w.next⟩ (some ⟨w.next + 1, ⟨w.next⟩⟩),
                Call.batchedRepositoryPublisher ⟨w.next + 1, ⟨w.next⟩⟩
                  ⟨w.next + 2, ⟨w.next + 1, ⟨w.next⟩⟩⟩,
                Call.jobsSqliteRepository ⟨w.next⟩ (some ⟨w.next + 3, ⟨w.next⟩⟩)] ++ extra ++
                [Call.newWeb ⟨w.next + 1, ⟨w.next⟩⟩ ⟨w.next + 3, ⟨w.next⟩⟩, Call.serve]),
              by simp [hcalls, storeCalls], fun h => by simp at h, ?_⟩
            intro db hdb
            simp at hdb
            subst hdb
            refine ⟨_, rfl, ?_⟩
            intro c hc
            rcases List.mem_append.mp hc with h | h
            · rcases List.mem_append.mp h with h | h
              · exact hstore c h
              · exact hextra c h
            · simp at h
              rcases h with h | h <;> subst h <;>
                simp [Call.isSqlOpen, Call.isSetMaxOpenConns, Call.isMustCompile, Call.dbUsed]

theorem main_of_load_ok (compile : String → Except String R) (env : Env) (cl : CommandLine)
    (w w1 : World R) (h : loadConfig compile cl w = (.ok (), w1)) :
    main compile env cl w = wire env w1 := by
  simp [main, h]

theorem main_of_load_error (compile : String → Except String R) (env : Env) (cl : CommandLine)
    (w w1 : World R) (e : Stop) (h : loadConfig compile cl w = (.error e, w1)) :
    main compile env cl w = (.error e, w1) := by
  simp [main, h]

theorem first_failure (compile : String → Except String R) :
    ∀ vs : List String, (∀ v ∈ vs, ∃ r, compile v = .ok r) ∨
      ∃ good v post err, vs = good ++ v :: post ∧ (∀ u ∈ good, ∃ r, compile u = .ok r) ∧
        compile v = .error err := by
  intro vs
  induction vs with
  | nil => left; simp
  | cons x xs ih =>
    cases hx : compile x with
    | error err => right; exact ⟨[], x, xs, err, rfl, by simp, hx⟩
    | ok r =>
      rcases ih with h | ⟨good, v, post, err, hsplit, hgood, hv⟩
      · left
        intro v hv
        rcases List.mem_cons.mp hv with h1 | h1
        · exact ⟨r, h1 ▸ hx⟩
        · exact h v h1
      · right
        refine ⟨x :: good, v, post, err, by simp [hsplit], ?_, hv⟩
        intro u hu
        rcases List.mem_cons.mp hu with h1 | h1
        · exact ⟨r, h1 ▸ hx⟩
        · exact hgood u h1

theorem load_ok_inv (compile : String → Except String R) (cl : CommandLine) (c0 : Config R)
    (hload : (loadConfig compile cl (World.init c0)).1 = .ok ()) :
    (∀ v ∈ cl.fieldExtractors, ∃ r, compile v = .ok r) ∧
      (cl.args = [] ∨ ∃ d, compile cl.delimiter = .ok d) := by
  rcases first_failure compile cl.fieldExtractors with hall | ⟨good, v, post, err, hs, hg, hv⟩
  · refine ⟨hall, ?_⟩
    cases hargs : cl.args with
    | nil => exact Or.inl rfl
    | cons a rest =>
      cases hd : compile cl.delimiter with
      | ok d => exact Or.inr ⟨d, rfl⟩
      | error err =>
        rw [loadConfig_panic compile cl c0 a rest err hall hargs hd] at hload
        simp at hload
  · rw [loadConfig_fatal compile cl c0 good v post err hs hg hv] at hload
    simp at hload

theorem main_fieldExtractors (compile : String → Except String R) (env : Env) (cl : CommandLine)
    (c0 : Config R) (hall : ∀ v ∈ cl.fieldExtractors, ∃ r, compile v = .ok r) :
    (main compile env cl (World.init c0)).2.cfg.FieldExtractors =
      (loadedCfg compile cl c0).FieldExtractors := by
  have hok : (cl.args = [] ∨ ∃ d, compile cl.delimiter = .ok d) →
      (main compile env cl (World.init c0)).2.cfg.FieldExtractors =
        (loadedCfg compile cl c0).FieldExtractors := by
    intro hd
    rw [main_of_load_ok compile env cl _ _ (loadConfig_ok compile cl c0 hall hd),
      (wire_shape env _).1]
  cases hargs : cl.args with
  | nil => exact hok (Or.inl hargs)
  | cons a rest =>
    cases hd : compile cl.delimiter with
    | ok d => exact hok (Or.inr ⟨d, hd⟩)
    | error err =>
      rw [main_of_load_error compile env cl _ _ _
        (loadConfig_panic compile cl c0 a rest err hall hargs hd)]

theorem main_ok (compile : String → Except String R) (env : Env) (cl : CommandLine) (c0 : Config R)
    (hall : ∀ v ∈ cl.fieldExtractors, ∃ r, compile v = .ok r)
    (hd : cl.args = [] ∨ ∃ d, compile cl.delimiter = .ok d)
    (hsql : ∀ a b, env.sqlOpen a b = none)
    (hev : ∀ db, env.eventsSqliteRepository db = none)
    (hjobs : ∀ db, env.jobsSqliteRepository db = none)
    (hopen : ∀ a ∈ cl.args, env.osOpen a = none) :
    main compile env cl (World.init c0) =
      (.error (match env.serve with | some err => Stop.fatal err | none => Stop.serving),
        ⟨loadedCfg compile cl c0, parsedFlags cl,
          loadCalls cl ++ wireCalls ((loadedCfg compile cl c0).SQLite.DatabaseFile ++ "?cache=shared") 0
            (loadedCfg compile cl c0).IndexedFiles,
          4 + 2 * (loadedCfg compile cl c0).IndexedFiles.length⟩) := by
  have hfiles : ∀ f ∈ (loadedCfg compile cl c0).IndexedFiles, env.osOpen f.Filename = none := by
    intro f hf
    simp only [loadedCfg, List.mem_map] at hf
    obtain ⟨a, ha, rfl⟩ := hf
    exact hopen a ha
  rw [main_of_load_ok compile env cl _ _ (loadConfig_ok compile cl c0 hall hd),
    wire_ok env _ (hsql _ _) (hev _) (hjobs _) hfiles]

theorem chansMade_append (xs ys : List (Call R)) :
    chansMade (xs ++ ys) = chansMade xs ++ chansMade ys := by
  simp [chansMade]

theorem filesOpened_append (xs ys : List (Call R)) :
    filesOpened (xs ++ ys) = filesOpened xs ++ filesOpened ys := by
  simp [filesOpened]

theorem watchersCreated_append (xs ys : List (Call R)) :
    watchersCreated (xs ++ ys) = watchersCreated xs ++ watchersCreated ys := by
  simp [watchersCreated]

theorem watchersStarted_append (xs ys : List (Call R)) :
    watchersStarted (xs ++ ys) = watchersStarted xs ++ watchersStarted ys := by
  simp [watchersStarted]

theorem publishersCreated_append (xs ys : List (Call R)) :
    publishersCreated (xs ++ ys) = publishersCreated xs ++ publishersCreated ys := by
  simp [publishersCreated]

theorem loadCalls_observed (cl : CommandLine) :
    chansMade (loadCalls cl : List (Call R)) = [] ∧ filesOpened (loadCalls cl : List (Call R)) = [] ∧
      watchersCreated (loadCalls cl : List (Call R)) = [] ∧
      watchersStarted (loadCalls cl : List (Call R)) = [] ∧
      publishersCreated (loadCalls cl : List (Call R)) = [] := by
  simp [loadCalls, chansMade, filesOpened, watchersCreated, watchersStarted, publishersCreated,
    List.filterMap_eq_nil_iff, List.filterMap_map]

theorem watcherCalls_observed (publisher : Publisher) :
    ∀ (files : List (IndexedFileConfig R)) (n : Nat),
      (chansMade (watcherCalls publisher n files)).length = files.length ∧
      watchersCreated (watcherCalls publisher n files) =
        watchersStarted (watcherCalls publisher n files) ∧
      (watchersStarted (watcherCalls publisher n files)).map (·.fileConfig) = files ∧
      (watchersStarted (watcherCalls publisher n files)).map (·.commands) =
        (chansMade (watcherCalls publisher n files)).map some ∧
      (watchersStarted (watcherCalls publisher n files)).map (·.file) =
        filesOpened (watcherCalls publisher n files) ∧
      (filesOpened (watcherCalls publisher n files)).map (·.name) = files.map (·.Filename) ∧
      (∀ fw ∈ watchersStarted (watcherCalls publisher n files), fw.publisher = publisher) ∧
      publishersCreated (watcherCalls publisher n files) = [] ∧
      (∀ c ∈ chansMade (watcherCalls publisher n files), n ≤ c.id) ∧
      (chansMade (watcherCalls publisher n files)).Nodup := by
  intro files
  induction files with
  | nil =>
    intro n
    simp [watcherCalls, chansMade, watchersCreated, watchersStarted, filesOpened, publishersCreated]
  | cons file rest ih =>
    intro n
    obtain ⟨h1, h2, h3, h4, h5, h6, h7, h8, h9, h10⟩ := ih (n + 2)
    have e1 : chansMade (watcherCalls publisher n (file :: rest)) =
        ⟨n⟩ :: chansMade (watcherCalls publisher (n + 2) rest) := by
      simp [watcherCalls, watcherStepCalls, chansMade]
    have e2 : watchersCreated (watcherCalls publisher n (file :: rest)) =
        ⟨file, some ⟨n⟩, publisher, ⟨n + 1, file.Filename⟩⟩ ::
          watchersCreated (watcherCalls publisher (n + 2) rest) := by
      simp [watcherCalls, watcherStepCalls, watchersCreated]
    have e3 : watchersStarted (watcherCalls publisher n (file :: rest)) =
        ⟨file, some ⟨n⟩, publisher, ⟨n + 1, file.Filename⟩⟩ ::
          watchersStarted (watcherCalls publisher (n + 2) rest) := by
      simp [watcherCalls, watcherStepCalls, watchersStarted]
    have e4 : filesOpened (watcherCalls publisher n (file :: rest)) =
        ⟨n + 1, file.Filename⟩ :: filesOpened (watcherCalls publisher (n + 2) rest) := by
      simp [watcherCalls, watcherStepCalls, filesOpened]
    have e5 : publishersCreated (watcherCalls publisher n (file :: rest)) =
        publishersCreated (watcherCalls publisher (n + 2) rest) := by
      simp [watcherCalls, watcherStepCalls, publishersCreated]
    rw [e1, e2, e3, e4, e5]
    refine ⟨by simp [h1], by rw [h2], by simp [h3], by simp [h4], by simp [h5], by simp [h6],
      ?_, h8, ?_, ?_⟩
    · intro fw hfw
      rcases List.mem_cons.mp hfw with h | h
      · subst h; rfl
      · exact h7 fw h
    · intro c hc
      rcases List.mem_cons.mp hc with h | h
      · subst h; exact Nat.le_refl _
      · exact Nat.le_trans (by omega) (h9 c h)
    · refine List.nodup_cons.mpr ⟨?_, h10⟩
      intro hmem
      have := h9 _ hmem
      simp at this

theorem compiles_iff (compile : String → Except String R) (v : String) :
    compiles compile v = true ↔ ∃ r, compile v = .ok r := by
  unfold compiles
  cases compile v <;> simp [Except.toOption]

theorem compiles_all (compile : String → Except String R) (vs : List String)
    (h : ∀ v ∈ vs, compiles compile v = true) : ∀ v ∈ vs, ∃ r, compile v = .ok r :=
  fun v hv => (compiles_iff compile v).mp (h v hv)

theorem load_not_fatal (compile : String → Except String R) (cl : CommandLine) (c0 : Config R)
    (hall : ∀ v ∈ cl.fieldExtractors, ∃ r, compile v = .ok r) (msg : String) :
    (loadConfig compile cl (World.init c0)).1 ≠ .error (.fatal msg) := by
  cases hargs : cl.args with
  | nil => rw [loadConfig_ok compile cl c0 hall (Or.inl hargs)]; simp
  | cons a rest =>
    cases hd : compile cl.delimiter with
    | ok d => rw [loadConfig_ok compile cl c0 hall (Or.inr ⟨d, hd⟩)]; simp
    | error err => rw [loadConfig_panic compile cl c0 a rest err hall hargs hd]; simp

end

/-! ## The wiring, case by case -/

theorem wire_sql_fail {R : Type} (env : Env) (w : World R) (err : String)
    (hsql : env.sqlOpen "sqlite3" (w.cfg.SQLite.DatabaseFile ++ "?cache=shared") = some err) :
    wire env w =
      (.error (.fatal (err ++ "\n")),
        { w with calls := w.calls ++
            [Call.sqlOpen "sqlite3" (w.cfg.SQLite.DatabaseFile ++ "?cache=shared") none] }) := by
  simp [wire, getCfg, sqlOpen, hsql, call, logFatal, stop]

theorem wire_events_fail {R : Type} (env : Env) (w : World R) (err : String)
    (hsql : env.sqlOpen "sqlite3" (w.cfg.SQLite.DatabaseFile ++ "?cache=shared") = none)
    (hev : env.eventsSqliteRepository ⟨w.next⟩ = some err) :
    wire env w =
      (.error (.fatal (err ++ "\n")),
        { w with
          calls := w.calls ++
            [ Call.sqlOpen "sqlite3" (w.cfg.SQLite.DatabaseFile ++ "?cache=shared") (some ⟨w.next⟩),
              Call.setMaxOpenConns ⟨w.next⟩ 1,
              Call.eventsSqliteRepository ⟨w.next⟩ none ]
          next := w.next + 1 }) := by
  simp [wire, getCfg, sqlOpen, hsql, fresh, call, setMaxOpenConns, eventsSqliteRepository, hev,
    logFatal, stop]

theorem wire_jobs_fail {R : Type} (env : Env) (w : World R) (err : String)
    (hsql : env.sqlOpen "sqlite3" (w.cfg.SQLite.DatabaseFile ++ "?cache=shared") = none)
    (hev : env.eventsSqliteRepository ⟨w.next⟩ = none)
    (hjobs : env.jobsSqliteRepository ⟨w.next⟩ = some err) :
    wire env w =
      (.error (.fatal (err ++ "\n")),
        { w with
          calls := w.calls ++
            [ Call.sqlOpen "sqlite3" (w.cfg.SQLite.DatabaseFile ++ "?cache=shared") (some ⟨w.next⟩),
              Call.setMaxOpenConns ⟨w.next⟩ 1,
              Call.eventsSqliteRepository ⟨w.next⟩ (some ⟨w.next + 1, ⟨w.next⟩⟩),
              Call.batchedRepositoryPublisher ⟨w.next + 1, ⟨w.next⟩⟩
                ⟨w.next + 2, ⟨w.next + 1, ⟨w.next⟩⟩⟩,
              Call.jobsSqliteRepository ⟨w.next⟩ none ]
          next := w.next + 3 }) := by
  simp [wire, getCfg, sqlOpen, hsql, fresh, call, setMaxOpenConns, eventsSqliteRepository, hev,
    batchedRepositoryPublisher, jobsSqliteRepository, hjobs, logFatal, stop, Nat.add_assoc]

theorem wire_store_calls {R : Type} (env : Env) (w : World R)
    (hsql : env.sqlOpen "sqlite3" (w.cfg.SQLite.DatabaseFile ++ "?cache=shared") = none)
    (hev : env.eventsSqliteRepository ⟨w.next⟩ = none)
    (hjobs : env.jobsSqliteRepository ⟨w.next⟩ = none) :
    ∃ rest, (wire env w).2.calls =
        w.calls ++ storeCalls (w.cfg.SQLite.DatabaseFile ++ "?cache=shared") w.next ++ rest ∧
      ∀ c ∈ rest, c.isSqlOpen = false ∧ c.isSetMaxOpenConns = false ∧ c.isStoreUser = false := by
  obtain ⟨_, extra, hcalls, hloop⟩ := startFileWatchers_frame env
    ⟨w.next + 2, ⟨w.next + 1, ⟨w.next⟩⟩⟩ w.cfg.IndexedFiles 0
    (List.replicate w.cfg.IndexedFiles.length none)
    { w with
      calls := w.calls ++ storeCalls (w.cfg.SQLite.DatabaseFile ++ "?cache=shared") w.next
      next := w.next + 4 }
  have hextra : ∀ c ∈ extra,
      c.isSqlOpen = false ∧ c.isSetMaxOpenConns = false ∧ c.isStoreUser = false := by
    intro c hc
    obtain ⟨h1, h2, h3, _, _⟩ := inWatcherLoop_props c (hloop c hc)
    exact ⟨h1, h2, h3⟩
  rw [wire_store_ok env w hsql hev hjobs]
  revert hcalls
  cases hr : startFileWatchers env ⟨w.next + 2, ⟨w.next + 1, ⟨w.next⟩⟩⟩ 0 w.cfg.IndexedFiles
      (List.replicate w.cfg.IndexedFiles.length none) _ with
  | mk r w1 =>
    intro hcalls
    simp only at hcalls
    cases r with
    | error e => exact ⟨extra, hcalls, hextra⟩
    | ok u =>
      refine ⟨extra ++ [Call.newWeb ⟨w.next + 1, ⟨w.next⟩⟩ ⟨w.next + 3, ⟨w.next⟩⟩, Call.serve],
        by simp [hcalls], ?_⟩
      intro c hc
      rcases List.mem_append.mp hc with h | h
      · exact hextra c h
      · simp at h
        rcases h with h | h <;> subst h <;> exact ⟨rfl, rfl, rfl⟩

/-! ## The claims -/

/-- Claim C1, as the code has it: loading rejects an extraction rule only when it
does not compile.  When every `-fieldextractor` value compiles, loading is not
stopped by the fatal error of the extractor loop, and the compiled expression of
every value is an entry of `cfg.FieldExtractors` when the run is over, whatever
its capture groups: the loop never looks at them. -/
theorem compiled_rule_is_loaded_whatever_its_shape {R : Type}
    (compile : String → Except String R) (env : Env) (cl : CommandLine) (c0 : Config R)
    (hall : ∀ v ∈ cl.fieldExtractors, compiles compile v = true) :
    (∀ msg, (loadConfig compile cl (World.init c0)).1 ≠ .error (.fatal msg)) ∧
    ∀ v ∈ cl.fieldExtractors, ∀ r, compile v = .ok r →
      some r ∈ (main compile env cl (World.init c0)).2.cfg.FieldExtractors := by
  have hall1 := compiles_all compile _ hall
  refine ⟨load_not_fatal compile cl c0 hall1, ?_⟩
  intro v hv r hr
  have hpos : cl.fieldExtractors.length > 0 := List.length_pos_of_mem hv
  rw [main_fieldExtractors compile env cl c0 hall1]
  simp only [loadedCfg, hpos, if_true, List.mem_map]
  exact ⟨v, hv, by simp [hr, Except.toOption]⟩

/-- Claim C1, witness: the rules `abc` (no capture group) and `(a)(b)(c)` (three
groups) both compile and both are loaded. -/
theorem compiled_rule_is_loaded_witness :
    (∀ v ∈ (CommandLine.mk [.fieldextractor "abc", .fieldextractor "(a)(b)(c)"] []).fieldExtractors,
      compiles goCompile v = true) ∧
    ((∀ msg, (loadConfig goCompile ⟨[.fieldextractor "abc", .fieldextractor "(a)(b)(c)"], []⟩
        (World.init builtinCfg)).1 ≠ .error (.fatal msg)) ∧
     ∀ v ∈ (CommandLine.mk [.fieldextractor "abc", .fieldextractor "(a)(b)(c)"] []).fieldExtractors,
      ∀ r, goCompile v = .ok r →
        some r ∈ (main goCompile Env.allOk ⟨[.fieldextractor "abc", .fieldextractor "(a)(b)(c)"], []⟩
          (World.init builtinCfg)).2.cfg.FieldExtractors) :=
  ⟨by decide, compiled_rule_is_loaded_whatever_its_shape goCompile Env.allOk _ builtinCfg (by decide)⟩

/-- Claim C1, counterexample: the rule `abc` compiles, has no capture group and so
neither supported shape, and yet start-up does not fail (the process ends up
serving) and the rule is the one entry of `cfg.FieldExtractors`. -/
theorem shapeless_rule_is_loaded :
    (goCompile "abc").toOption.map
        (fun re => (re.NumSubexp, isNamedGroupRule re, isTwoGroupRule re)) = some (0, false, false) ∧
    (run goCompile Env.allOk ⟨[.fieldextractor "abc"], []⟩).1 = .error .serving ∧
    (run goCompile Env.allOk ⟨[.fieldextractor "abc"], []⟩).2.map (·.cfg.FieldExtractors) =
      some [(goCompile "abc").toOption] ∧
    (goCompile "abc").toOption.isSome = true := by
  have hcfg : cfg goCompile = .ok builtinCfg := by rfl
  have hm := main_ok goCompile Env.allOk ⟨[.fieldextractor "abc"], []⟩ builtinCfg
    (compiles_all goCompile _ (by decide)) (Or.inl rfl) (fun _ _ => rfl) (fun _ => rfl)
    (fun _ => rfl) (fun _ _ => rfl)
  refine ⟨by decide, ?_, ?_, by decide⟩
  · simp only [run, hcfg, hm]
    rfl
  · simp only [run, hcfg, hm]
    simp [loadedCfg, CommandLine.fieldExtractors]

/-- Claim C2: a malformed extraction rule is fatal at start-up.  When the
`-fieldextractor` values are `good ++ v :: post`, every value of `good` compiles
and `v` does not, `main` ends in `log.Fatalf` with the message for `v`, and the
only calls made are the compilations of `good` and of `v`, in flag order: the
database is not opened, no file is opened, no file watcher is made.  When every
value compiles, loading does not end in a fatal error. -/
theorem malformed_extractor_is_fatal {R : Type}
    (compile : String → Except String R) (env : Env) (cl : CommandLine) (c0 : Config R) :
    (∀ good v post err, cl.fieldExtractors = good ++ v :: post →
      (∀ u ∈ good, compiles compile u = true) → compile v = .error err →
      (main compile env cl (World.init c0)).1 =
        .error (.fatal ("failed to compile regex \x27" ++ v ++ "\x27: " ++ err ++ "\n")) ∧
      (main compile env cl (World.init c0)).2.calls = (good ++ [v]).map Call.regexpCompile ∧
      ∀ c ∈ (main compile env cl (World.init c0)).2.calls,
        c.isSqlOpen = false ∧ c.inWatcherLoop = false) ∧
    ((∀ v ∈ cl.fieldExtractors, compiles compile v = true) →
      ∀ msg, (loadConfig compile cl (World.init c0)).1 ≠ .error (.fatal msg)) := by
  refine ⟨?_, fun hall => load_not_fatal compile cl c0 (compiles_all compile _ hall)⟩
  intro good v post err hsplit hgood hv
  have h := main_of_load_error compile env cl _ _ _
    (loadConfig_fatal compile cl c0 good v post err hsplit (compiles_all compile _ hgood) hv)
  rw [h]
  refine ⟨rfl, rfl, ?_⟩
  intro c hc
  simp only [List.mem_map] at hc
  obtain ⟨u, _, rfl⟩ := hc
  exact ⟨rfl, rfl⟩

/-- Claim C2, witness: of the rules `(a)(b)`, `(c` and `d`, the second does not
compile; start-up is fatal there, after two compilations. -/
theorem malformed_extractor_is_fatal_witness :
    (CommandLine.mk [.fieldextractor "(a)(b)", .fieldextractor "(c", .fieldextractor "d"]
        ["x.log"]).fieldExtractors = ["(a)(b)"] ++ "(c" :: ["d"] ∧
    (∀ u ∈ ["(a)(b)"], compiles goCompile u = true) ∧
    goCompile "(c" = .error "error parsing regexp: missing closing ): \x60(c\x60" ∧
    (main goCompile Env.allOk
        ⟨[.fieldextractor "(a)(b)", .fieldextractor "(c", .fieldextractor "d"], ["x.log"]⟩
        (World.init builtinCfg)).1 =
      .error (.fatal ("failed to compile regex \x27" ++ "(c" ++ "\x27: " ++
        "error parsing regexp: missing closing ): \x60(c\x60" ++ "\n")) ∧
    (main goCompile Env.allOk
        ⟨[.fieldextractor "(a)(b)", .fieldextractor "(c", .fieldextractor "d"], ["x.log"]⟩
        (World.init builtinCfg)).2.calls =
      (["(a)(b)"] ++ ["(c"]).map Call.regexpCompile ∧
    ((∀ v ∈ (CommandLine.mk [.fieldextractor "(a)(b)"] ["x.log"]).fieldExtractors,
        compiles goCompile v = true) ∧
      ∀ msg, (loadConfig goCompile ⟨[.fieldextractor "(a)(b)"], ["x.log"]⟩
        (World.init builtinCfg)).1 ≠ .error (.fatal msg)) :=
  have h := (malformed_extractor_is_fatal goCompile Env.allOk
    ⟨[.fieldextractor "(a)(b)", .fieldextractor "(c", .fieldextractor "d"], ["x.log"]⟩
    builtinCfg).1 ["(a)(b)"] "(c" ["d"] "error parsing regexp: missing closing ): \x60(c\x60"
    (by decide) (by decide) (by rfl)
  ⟨by decide, by decide, by rfl, h.1, h.2.1, by decide,
    (malformed_extractor_is_fatal goCompile Env.allOk ⟨[.fieldextractor "(a)(b)"], ["x.log"]⟩
      builtinCfg).2 (by decide)⟩

/-- Claim C3: extraction rules keep their configured order.  When the
`-fieldextractor` occurrences carry the values `v1..vn` (`n >= 1`) and all of them
compile, the flag variable, filled by `flagStringArray.Set` from the empty array,
holds `v1..vn`, and at the end of the run `cfg.FieldExtractors` has length `n` and
its `i`-th entry is the expression compiled from `vi`; what `cfg.FieldExtractors`
held before (the two built-in rules) is gone. -/
theorem extractors_keep_flag_order {R : Type}
    (compile : String → Except String R) (env : Env) (cl : CommandLine) (c0 : Config R)
    (hne : cl.fieldExtractors ≠ [])
    (hall : ∀ v ∈ cl.fieldExtractors, compiles compile v = true) :
    cl.fieldExtractors.foldl (fun arr v => (flagStringArray.Set arr v).1) [] = cl.fieldExtractors ∧
    (loadConfig compile cl (World.init c0)).2.flags.fieldExtractorFlags = cl.fieldExtractors ∧
    (main compile env cl (World.init c0)).2.cfg.FieldExtractors.length =
      cl.fieldExtractors.length ∧
    (main compile env cl (World.init c0)).2.cfg.FieldExtractors =
      cl.fieldExtractors.map (fun v => (compile v).toOption) ∧
    ∀ i v, cl.fieldExtractors.get? i = some v →
      ∃ r, compile v = .ok r ∧
        (main compile env cl (World.init c0)).2.cfg.FieldExtractors.get? i = some (some r) := by
  have hall1 := compiles_all compile _ hall
  have hpos : cl.fieldExtractors.length > 0 := List.length_pos.mpr hne
  have hfe : (main compile env cl (World.init c0)).2.cfg.FieldExtractors =
      cl.fieldExtractors.map (fun v => (compile v).toOption) := by
    rw [main_fieldExtractors compile env cl c0 hall1]
    simp [loadedCfg, hpos]
  have hset : ∀ (vs pre : List String),
      vs.foldl (fun arr v => (flagStringArray.Set arr v).1) pre = pre ++ vs := by
    intro vs
    induction vs with
    | nil => intro pre; simp
    | cons x xs ih =>
      intro pre
      rw [List.foldl_cons, ih]
      simp [flagStringArray.Set]
  have hflags : (loadConfig compile cl (World.init c0)).2.flags.fieldExtractorFlags =
      cl.fieldExtractors := by
    cases hargs : cl.args with
    | nil => rw [loadConfig_ok compile cl c0 hall1 (Or.inl hargs)]; rfl
    | cons a rest =>
      cases hd : compile cl.delimiter with
      | ok d => rw [loadConfig_ok compile cl c0 hall1 (Or.inr ⟨d, hd⟩)]; rfl
      | error err => rw [loadConfig_panic compile cl c0 a rest err hall1 hargs hd]; rfl
  refine ⟨by simpa using hset cl.fieldExtractors [], hflags, by rw [hfe]; simp, hfe, ?_⟩
  intro i v hv
  obtain ⟨r, hr⟩ := hall1 v (List.get?_mem hv)
  refine ⟨r, hr, ?_⟩
  rw [hfe, List.get?_eq_getElem?, List.getElem?_map, ← List.get?_eq_getElem?, hv]
  simp [hr, Except.toOption]

/-- Claim C3, witness: the rules `(b)=(c)` and `(?P<a>x)` given in this order. -/
theorem extractors_keep_flag_order_witness :
    (CommandLine.mk [.fieldextractor "(b)=(c)", .delimiter ";", .fieldextractor "(?P<a>x)"]
        ["x.log"]).fieldExtractors ≠ [] ∧
    (∀ v ∈ (CommandLine.mk [.fieldextractor "(b)=(c)", .delimiter ";", .fieldextractor "(?P<a>x)"]
        ["x.log"]).fieldExtractors, compiles goCompile v = true) ∧
    (main goCompile Env.allOk
        ⟨[.fieldextractor "(b)=(c)", .delimiter ";", .fieldextractor "(?P<a>x)"], ["x.log"]⟩
        (World.init builtinCfg)).2.cfg.FieldExtractors =
      (CommandLine.mk [.fieldextractor "(b)=(c)", .delimiter ";", .fieldextractor "(?P<a>x)"]
        ["x.log"]).fieldExtractors.map (fun v => (goCompile v).toOption) :=
  ⟨by decide, by decide,
    (extractors_keep_flag_order goCompile Env.allOk
      ⟨[.fieldextractor "(b)=(c)", .delimiter ";", .fieldextractor "(?P<a>x)"], ["x.log"]⟩
      builtinCfg (by decide) (by decide)).2.2.2.1⟩

/-- Claim C4, as the code has it: for each of the two sample lines the built-in
rule `(\w+)=(\w+)` matches and the line yields exactly the field `user -> alice`
(respectively `user -> bob`); the built-in `_time` rule, which asks for one more
character and six digits after the seconds, matches neither line, so the built-in
rules draw no `_time` field from them.  It does match a line whose timestamp
carries microseconds, and captures that timestamp. -/
theorem default_rules_on_sample_lines :
    (cfg goCompile).toOption.map
        (fun c => extractFields c.FieldExtractors.reduceOption "2023/05/01 12:00:00 user=alice") =
      some (some [("user", "alice")]) ∧
    (cfg goCompile).toOption.map
        (fun c => extractFields c.FieldExtractors.reduceOption "2023/05/01 12:00:01 user=bob") =
      some (some [("user", "bob")]) ∧
    (cfg goCompile).toOption.map
        (fun c => c.FieldExtractors.map
          (fun r => r.bind (fun re => re.MatchString "2023/05/01 12:00:00 user=alice"))) =
      some [some true, some false] ∧
    (cfg goCompile).toOption.map
        (fun c => c.FieldExtractors.map
          (fun r => r.bind (fun re => re.MatchString "2023/05/01 12:00:01 user=bob"))) =
      some [some true, some false] ∧
    (cfg goCompile).toOption.map
        (fun c => extractFields c.FieldExtractors.reduceOption
          "2023/05/01 12:00:00.000000 user=alice") =
      some (some [("user", "alice"), ("_time", "2023/05/01 12:00:00.000000")]) := by
  refine ⟨by decide, by decide, by decide, by decide, by decide⟩

/-- Claim C4, counterexample: the second rule of `cfg.FieldExtractors` is the
built-in `_time` rule, and it does not match the line
`2023/05/01 12:00:00 user=alice`. -/
theorem default_time_rule_misses_sample_line :
    (cfg goCompile).toOption.map (fun c => c.FieldExtractors.map (Option.map (·.expr))) =
      some [some defaultFieldExtractor, some defaultTimeExtractor] ∧
    (goCompile defaultTimeExtractor).toOption.map
        (fun re => (re.SubexpNames, re.FindStringSubmatch "2023/05/01 12:00:00 user=alice")) =
      some (["", "_time"], some none) := by
  refine ⟨by decide, by decide⟩

set_option maxRecDepth 100000 in
/-- Claim C5, the code at the failing input: with no `-fieldextractor` flag the two
rules of `cfg.FieldExtractors` are, in order, `(\w+)=(\w+)` and the `_time` pattern
with a leading `^`; the usage text of the flag ends by naming its defaults, and
the second pattern it names has no `^`. -/
theorem default_time_pattern_differs_from_usage :
    (run goCompile Env.allOk ⟨[], []⟩).2.map
        (fun w => w.cfg.FieldExtractors.map (Option.map (·.expr))) =
      some [some "(\\w+)=(\\w+)",
        some "^(?P<_time>\\d\\d\\d\\d/\\d\\d/\\d\\d \\d\\d:\\d\\d:\\d\\d.\\d\\d\\d\\d\\d\\d)"] ∧
    ("(defaults \"" ++ usageDefaultFieldExtractor ++ "\" and \"" ++ usageDefaultTimeExtractor ++
        "\")").data.isSuffixOf fieldExtractorUsage.data = true ∧
    defaultFieldExtractor = usageDefaultFieldExtractor ∧
    defaultTimeExtractor ≠ usageDefaultTimeExtractor ∧
    defaultTimeExtractor = "^" ++ usageDefaultTimeExtractor := by
  have hcfg : cfg goCompile = .ok builtinCfg := by rfl
  have hm := main_ok goCompile Env.allOk ⟨[], []⟩ builtinCfg
    (compiles_all goCompile _ (by decide)) (Or.inl rfl) (fun _ _ => rfl) (fun _ => rfl)
    (fun _ => rfl) (fun _ _ => rfl)
  refine ⟨?_, by decide, by decide, by decide, by decide⟩
  simp only [run, hcfg, hm]
  decide

/-- Claim C6: every built-in extraction rule has one of the two supported shapes.
The first, `(\w+)=(\w+)`, has exactly two capture groups, both unnamed: it is a
two-group rule and not a named-group rule.  The second has exactly one capture
group, named `_time`: it is a named-group rule and not a two-group rule. -/
theorem default_rules_have_supported_shapes :
    (cfg goCompile).toOption.map (fun c => c.FieldExtractors.map (Option.map (·.expr))) =
      some [some "(\\w+)=(\\w+)", some defaultTimeExtractor] ∧
    (cfg goCompile).toOption.map (fun c => c.FieldExtractors.map (Option.map (·.NumSubexp))) =
      some [some 2, some 1] ∧
    (cfg goCompile).toOption.map (fun c => c.FieldExtractors.map (Option.map (·.SubexpNames))) =
      some [some ["", "", ""], some ["", "_time"]] ∧
    (cfg goCompile).toOption.map
        (fun c => c.FieldExtractors.map (Option.map (fun re => (isNamedGroupRule re, isTwoGroupRule re)))) =
      some [some (false, true), some (true, false)] := by
  refine ⟨by decide, by decide, by decide, by decide⟩

theorem main_cfg_of_load_ok {R : Type} (compile : String → Except String R) (env : Env)
    (cl : CommandLine) (c0 : Config R)
    (hall : ∀ v ∈ cl.fieldExtractors, ∃ r, compile v = .ok r)
    (hd : cl.args = [] ∨ ∃ d, compile cl.delimiter = .ok d) :
    (main compile env cl (World.init c0)).2.cfg = loadedCfg compile cl c0 := by
  rw [main_of_load_ok compile env cl _ _ (loadConfig_ok compile cl c0 hall hd),
    (wire_shape env _).1]

theorem lastValue_of_no_occurrence (d : String) (flags : List FlagArg)
    (f : FlagArg → Option String) (h : ∀ a ∈ flags, f a = none) :
    lastValue d (flags.filterMap f) = d := by
  have : flags.filterMap f = [] := List.filterMap_eq_nil_iff.mpr h
  rw [this]
  rfl

/-- Claim C7: one `IndexedFileConfig` per monitored file.  When the extraction
rules and the `-delimiter` value compile, loading succeeds and, for the
positional arguments `a1..an`, `cfg.IndexedFiles` has length `n` and its `i`-th
entry has `Filename = ai`, `EventDelimiter` the compiled delimiter,
`ReadInterval` one second (in nanoseconds) and `TimeLayout` the `-timelayout`
value, in the order of the arguments; without a `-delimiter` flag the delimiter
is `"\n"`, without a `-timelayout` flag the layout is `"2006/01/02 15:04:05"`. -/
theorem indexed_files_follow_arguments {R : Type}
    (compile : String → Except String R) (env : Env) (cl : CommandLine) (c0 : Config R)
    (hall : ∀ v ∈ cl.fieldExtractors, compiles compile v = true)
    (hdelim : compiles compile cl.delimiter = true) :
    ∃ d, compile cl.delimiter = .ok d ∧
      (loadConfig compile cl (World.init c0)).1 = .ok () ∧
      (main compile env cl (World.init c0)).2.cfg.IndexedFiles =
        cl.args.map (fun a => ⟨a, some d, 1000000000, cl.timelayout⟩) ∧
      (main compile env cl (World.init c0)).2.cfg.IndexedFiles.length = cl.args.length ∧
      (∀ i a, cl.args.get? i = some a →
        (main compile env cl (World.init c0)).2.cfg.IndexedFiles.get? i =
          some ⟨a, some d, 1000000000, cl.timelayout⟩) ∧
      ((∀ v, FlagArg.delimiter v ∉ cl.flags) → cl.delimiter = "\n") ∧
      ((∀ v, FlagArg.timelayout v ∉ cl.flags) → cl.timelayout = "2006/01/02 15:04:05") := by
  have hall1 := compiles_all compile _ hall
  obtain ⟨d, hd⟩ := (compiles_iff compile cl.delimiter).mp hdelim
  have hfiles : (main compile env cl (World.init c0)).2.cfg.IndexedFiles =
      cl.args.map (fun a => ⟨a, some d, 1000000000, cl.timelayout⟩) := by
    rw [main_cfg_of_load_ok compile env cl c0 hall1 (Or.inr ⟨d, hd⟩)]
    simp [loadedCfg, hd, Except.toOption]
  refine ⟨d, hd, ?_, hfiles, by rw [hfiles]; simp, ?_, ?_, ?_⟩
  · rw [loadConfig_ok compile cl c0 hall1 (Or.inr ⟨d, hd⟩)]
  · intro i a ha
    rw [hfiles, List.get?_eq_getElem?, List.getElem?_map, ← List.get?_eq_getElem?, ha]
    rfl
  · intro h
    apply lastValue_of_no_occurrence
    intro a ha
    cases a <;> first | rfl | exact absurd ha (h _)
  · intro h
    apply lastValue_of_no_occurrence
    intro a ha
    cases a <;> first | rfl | exact absurd ha (h _)

/-- Claim C7, witness: two files, the default delimiter and layout. -/
theorem indexed_files_follow_arguments_witness :
    (∀ v ∈ (CommandLine.mk [.dbfile ":memory:"] ["a.log", "b.log"]).fieldExtractors,
      compiles goCompile v = true) ∧
    compiles goCompile (CommandLine.mk [.dbfile ":memory:"] ["a.log", "b.log"]).delimiter = true ∧
    (CommandLine.mk [.dbfile ":memory:"] ["a.log", "b.log"]).delimiter = "\n" ∧
    (CommandLine.mk [.dbfile ":memory:"] ["a.log", "b.log"]).timelayout = "2006/01/02 15:04:05" ∧
    ∃ d, goCompile (CommandLine.mk [.dbfile ":memory:"] ["a.log", "b.log"]).delimiter = .ok d ∧
      (main goCompile Env.allOk ⟨[.dbfile ":memory:"], ["a.log", "b.log"]⟩
          (World.init builtinCfg)).2.cfg.IndexedFiles =
        (CommandLine.mk [.dbfile ":memory:"] ["a.log", "b.log"]).args.map
          (fun a => ⟨a, some d, 1000000000,
            (CommandLine.mk [.dbfile ":memory:"] ["a.log", "b.log"]).timelayout⟩) :=
  have h := indexed_files_follow_arguments goCompile Env.allOk
    ⟨[.dbfile ":memory:"], ["a.log", "b.log"]⟩ builtinCfg (by decide) (by decide)
  ⟨by decide, by decide, by decide, by decide, h.choose, h.choose_spec.1, h.choose_spec.2.2.1⟩

/-- Claim C8, as the code has it: one worker per monitored file, once the store is
set up.  When the configuration loads, the database and both repositories open
and every file opens, the run makes exactly `len(cfg.IndexedFiles)` channels and
starts exactly that many file watchers, each of them the watcher just
constructed; the `i`-th watcher is constructed with the `i`-th
`IndexedFileConfig`, the `i`-th channel (no channel is made twice, so none is
shared), the handle opened from the `i`-th filename, and the one publisher the
run creates. -/
theorem one_watcher_per_file {R : Type}
    (compile : String → Except String R) (env : Env) (cl : CommandLine) (c0 : Config R)
    (hall : ∀ v ∈ cl.fieldExtractors, compiles compile v = true)
    (hdelim : cl.args = [] ∨ compiles compile cl.delimiter = true)
    (hsql : ∀ a b, env.sqlOpen a b = none)
    (hev : ∀ db, env.eventsSqliteRepository db = none)
    (hjobs : ∀ db, env.jobsSqliteRepository db = none)
    (hopen : ∀ a ∈ cl.args, env.osOpen a = none) :
    (main compile env cl (World.init c0)).2.cfg.IndexedFiles.length = cl.args.length ∧
    (chansMade (main compile env cl (World.init c0)).2.calls).length =
      (main compile env cl (World.init c0)).2.cfg.IndexedFiles.length ∧
    (watchersStarted (main compile env cl (World.init c0)).2.calls).length =
      (main compile env cl (World.init c0)).2.cfg.IndexedFiles.length ∧
    watchersCreated (main compile env cl (World.init c0)).2.calls =
      watchersStarted (main compile env cl (World.init c0)).2.calls ∧
    (watchersStarted (main compile env cl (World.init c0)).2.calls).map (·.fileConfig) =
      (main compile env cl (World.init c0)).2.cfg.IndexedFiles ∧
    (watchersStarted (main compile env cl (World.init c0)).2.calls).map (·.commands) =
      (chansMade (main compile env cl (World.init c0)).2.calls).map some ∧
    (chansMade (main compile env cl (World.init c0)).2.calls).Nodup ∧
    (watchersStarted (main compile env cl (World.init c0)).2.calls).map (·.file) =
      filesOpened (main compile env cl (World.init c0)).2.calls ∧
    (filesOpened (main compile env cl (World.init c0)).2.calls).map (·.name) =
      (main compile env cl (World.init c0)).2.cfg.IndexedFiles.map (·.Filename) ∧
    ∃ publisher, publishersCreated (main compile env cl (World.init c0)).2.calls = [publisher] ∧
      ∀ fw ∈ watchersStarted (main compile env cl (World.init c0)).2.calls,
        fw.publisher = publisher := by
  have hall1 := compiles_all compile _ hall
  have hd : cl.args = [] ∨ ∃ d, compile cl.delimiter = .ok d :=
    hdelim.imp id (compiles_iff compile cl.delimiter).mp
  rw [main_ok compile env cl c0 hall1 hd hsql hev hjobs hopen]
  obtain ⟨l1, l2, l3, l4, l5⟩ := @loadCalls_observed R cl
  obtain ⟨h1, h2, h3, h4, h5, h6, h7, h8, _, h10⟩ :=
    @watcherCalls_observed R ⟨0 + 2, ⟨0 + 1, ⟨0⟩⟩⟩ (loadedCfg compile cl c0).IndexedFiles (0 + 4)
  have c1 : ∀ dsn : String, chansMade (storeCalls dsn 0 : List (Call R)) = [] := fun _ => rfl
  have c2 : ∀ dsn : String, filesOpened (storeCalls dsn 0 : List (Call R)) = [] := fun _ => rfl
  have c3 : ∀ dsn : String, watchersCreated (storeCalls dsn 0 : List (Call R)) = [] := fun _ => rfl
  have c4 : ∀ dsn : String, watchersStarted (storeCalls dsn 0 : List (Call R)) = [] := fun _ => rfl
  have c5 : ∀ dsn : String, publishersCreated (storeCalls dsn 0 : List (Call R)) =
      [⟨0 + 2, ⟨0 + 1, ⟨0⟩⟩⟩] := fun _ => rfl
  have t1 : chansMade ([Call.newWeb ⟨0 + 1, ⟨0⟩⟩ ⟨0 + 3, ⟨0⟩⟩, Call.serve] : List (Call R)) = [] := rfl
  have t2 : filesOpened ([Call.newWeb ⟨0 + 1, ⟨0⟩⟩ ⟨0 + 3, ⟨0⟩⟩, Call.serve] : List (Call R)) = [] :=
    rfl
  have t3 : watchersCreated ([Call.newWeb ⟨0 + 1, ⟨0⟩⟩ ⟨0 + 3, ⟨0⟩⟩, Call.serve] : List (Call R)) =
      [] := rfl
  have t4 : watchersStarted ([Call.newWeb ⟨0 + 1, ⟨0⟩⟩ ⟨0 + 3, ⟨0⟩⟩, Call.serve] : List (Call R)) =
      [] := rfl
  have t5 : publishersCreated ([Call.newWeb ⟨0 + 1, ⟨0⟩⟩ ⟨0 + 3, ⟨0⟩⟩, Call.serve] : List (Call R)) =
      [] := rfl
  simp only [wireCalls, chansMade_append, filesOpened_append, watchersCreated_append,
    watchersStarted_append, publishersCreated_append, l1, l2, l3, l4, l5, c1, c2, c3, c4, c5,
    t1, t2, t3, t4, t5, List.nil_append, List.append_nil, h8]
  refine ⟨by simp [loadedCfg], h1, ?_, h2, h3, h4, h10, h5, h6, ⟨0 + 2, ⟨0 + 1, ⟨0⟩⟩⟩, rfl, h7⟩
  have := congrArg List.length h3
  simpa using this

/-- Claim C8, witness: three files, one of them named twice. -/
theorem one_watcher_per_file_witness :
    (∀ v ∈ (CommandLine.mk [] ["a.log", "b.log", "a.log"]).fieldExtractors,
      compiles goCompile v = true) ∧
    compiles goCompile (CommandLine.mk [] ["a.log", "b.log", "a.log"]).delimiter = true ∧
    (chansMade (main goCompile Env.allOk ⟨[], ["a.log", "b.log", "a.log"]⟩
        (World.init builtinCfg)).2.calls).length =
      (main goCompile Env.allOk ⟨[], ["a.log", "b.log", "a.log"]⟩
        (World.init builtinCfg)).2.cfg.IndexedFiles.length ∧
    (main goCompile Env.allOk ⟨[], ["a.log", "b.log", "a.log"]⟩
        (World.init builtinCfg)).2.cfg.IndexedFiles.length =
      (CommandLine.mk [] ["a.log", "b.log", "a.log"]).args.length ∧
    (chansMade (main goCompile Env.allOk ⟨[], ["a.log", "b.log", "a.log"]⟩
        (World.init builtinCfg)).2.calls).Nodup :=
  have h := one_watcher_per_file goCompile Env.allOk ⟨[], ["a.log", "b.log", "a.log"]⟩ builtinCfg
    (by decide) (Or.inr (by decide)) (fun _ _ => rfl) (fun _ => rfl) (fun _ => rfl)
    (fun _ _ => rfl)
  ⟨by decide, by decide, h.2.1, h.1, h.2.2.2.2.2.2.1⟩

/-- Claim C8, counterexample: `jobs.SqliteRepository` returns an error and every
file would open; the configuration has two entries in `cfg.IndexedFiles`, the run
is stopped by `log.Fatalln` before the file-watcher loop, and no channel is made
and no watcher is started. -/
theorem watchers_need_the_store :
    (∀ a ∈ (CommandLine.mk [] ["a.log", "b.log"]).args, Env.jobsFail.osOpen a = none) ∧
    (main goCompile Env.jobsFail ⟨[], ["a.log", "b.log"]⟩ (World.init builtinCfg)).1 =
      .error (.fatal "no such table: Jobs\n") ∧
    (main goCompile Env.jobsFail ⟨[], ["a.log", "b.log"]⟩
      (World.init builtinCfg)).2.cfg.IndexedFiles.length = 2 ∧
    chansMade (main goCompile Env.jobsFail ⟨[], ["a.log", "b.log"]⟩
      (World.init builtinCfg)).2.calls = [] ∧
    watchersStarted (main goCompile Env.jobsFail ⟨[], ["a.log", "b.log"]⟩
      (World.init builtinCfg)).2.calls = [] := by
  have hl := loadConfig_ok goCompile ⟨[], ["a.log", "b.log"]⟩ builtinCfg
    (compiles_all goCompile _ (by decide)) (Or.inr ⟨_, rfl⟩)
  have hw := wire_jobs_fail Env.jobsFail
    (⟨loadedCfg goCompile ⟨[], ["a.log", "b.log"]⟩ builtinCfg,
      parsedFlags ⟨[], ["a.log", "b.log"]⟩, loadCalls ⟨[], ["a.log", "b.log"]⟩, 0⟩ :
      World regexp.Regexp) "no such table: Jobs" rfl rfl rfl
  rw [main_of_load_ok goCompile Env.jobsFail _ _ _ hl, hw]
  obtain ⟨l1, _, _, l4, _⟩ := @loadCalls_observed regexp.Regexp ⟨[], ["a.log", "b.log"]⟩
  refine ⟨fun _ _ => rfl, rfl, by simp [loadedCfg], ?_, ?_⟩
  · simp only [chansMade_append, l1, List.nil_append]
    rfl
  · simp only [watchersStarted_append, l4, List.nil_append]
    rfl

/-- Claim C9: the single-connection store policy.  In every run whose
configuration loads, the calls of the loading touch no store, and the wiring
goes on as follows.  It calls `sql.Open` once; when that returns an error,
nothing follows.  When it returns the handle `db`, the next call is
`SetMaxOpenConns(1)` on `db`, and the one after it `events.SqliteRepository(db)`;
when that returns an error, nothing follows.  When it returns the repository
`repo`, built on `db`, the publisher is created on `repo` and
`jobs.SqliteRepository(db)` is called; when that returns an error, nothing
follows.  When it returns the job repository, built on `db`, no later call opens
a database, sets the limit again or creates another repository or publisher. -/
theorem store_has_single_connection {R : Type}
    (compile : String → Except String R) (env : Env) (cl : CommandLine) (c0 : Config R)
    (hload : (loadConfig compile cl (World.init c0)).1 = .ok ()) :
    (∀ c ∈ (loadConfig compile cl (World.init c0)).2.calls,
      c.isSqlOpen = false ∧ c.isSetMaxOpenConns = false ∧ c.isStoreUser = false) ∧
    (∀ err,
      env.sqlOpen "sqlite3"
        ((loadConfig compile cl (World.init c0)).2.cfg.SQLite.DatabaseFile ++ "?cache=shared") =
          some err →
      (main compile env cl (World.init c0)).2.calls =
        (loadConfig compile cl (World.init c0)).2.calls ++
          [Call.sqlOpen "sqlite3"
            ((loadConfig compile cl (World.init c0)).2.cfg.SQLite.DatabaseFile ++ "?cache=shared")
            none]) ∧
    (env.sqlOpen "sqlite3"
        ((loadConfig compile cl (World.init c0)).2.cfg.SQLite.DatabaseFile ++ "?cache=shared") =
          none →
      ∃ db : DB,
        (∀ err, env.eventsSqliteRepository db = some err →
          (main compile env cl (World.init c0)).2.calls =
            (loadConfig compile cl (World.init c0)).2.calls ++
              [ Call.sqlOpen "sqlite3"
                  ((loadConfig compile cl (World.init c0)).2.cfg.SQLite.DatabaseFile ++
                    "?cache=shared") (some db),
                Call.setMaxOpenConns db 1,
                Call.eventsSqliteRepository db none ]) ∧
        (env.eventsSqliteRepository db = none →
          ∃ (repo : EventRepository) (publisher : Publisher),
            repo.db = db ∧ publisher.repo = repo ∧
            (∀ err, env.jobsSqliteRepository db = some err →
              (main compile env cl (World.init c0)).2.calls =
                (loadConfig compile cl (World.init c0)).2.calls ++
                  [ Call.sqlOpen "sqlite3"
                      ((loadConfig compile cl (World.init c0)).2.cfg.SQLite.DatabaseFile ++
                        "?cache=shared") (some db),
                    Call.setMaxOpenConns db 1,
                    Call.eventsSqliteRepository db (some repo),
                    Call.batchedRepositoryPublisher repo publisher,
                    Call.jobsSqliteRepository db none ]) ∧
            (env.jobsSqliteRepository db = none →
              ∃ (jobRepo : JobRepository) (rest : List (Call R)),
                jobRepo.db = db ∧
                (main compile env cl (World.init c0)).2.calls =
                  (loadConfig compile cl (World.init c0)).2.calls ++
                    [ Call.sqlOpen "sqlite3"
                        ((loadConfig compile cl (World.init c0)).2.cfg.SQLite.DatabaseFile ++
                          "?cache=shared") (some db),
                      Call.setMaxOpenConns db 1,
                      Call.eventsSqliteRepository db (some repo),
                      Call.batchedRepositoryPublisher repo publisher,
                      Call.jobsSqliteRepository db (some jobRepo) ] ++ rest ∧
                ∀ c ∈ rest, c.isSqlOpen = false ∧ c.isSetMaxOpenConns = false ∧
                  c.isStoreUser = false))) := by
  obtain ⟨hall, hd⟩ := load_ok_inv compile cl c0 hload
  have hl := loadConfig_ok compile cl c0 hall hd
  rw [main_of_load_ok compile env cl _ _ hl, hl]
  refine ⟨?_, ?_, ?_⟩
  · intro c hc
    simp only [loadCalls, List.mem_append, List.mem_map, List.mem_replicate] at hc
    rcases hc with ⟨v, _, rfl⟩ | ⟨_, rfl⟩ <;> exact ⟨rfl, rfl, rfl⟩
  · intro err hsql
    rw [wire_sql_fail env _ err hsql]
  · intro hsql
    refine ⟨⟨0⟩, ?_, ?_⟩
    · intro err hev
      rw [wire_events_fail env _ err hsql hev]
    · intro hev
      refine ⟨⟨0 + 1, ⟨0⟩⟩, ⟨0 + 2, ⟨0 + 1, ⟨0⟩⟩⟩, rfl, rfl, ?_, ?_⟩
      · intro err hjobs
        rw [wire_jobs_fail env _ err hsql hev hjobs]
      · intro hjobs
        obtain ⟨rest, hcalls, hrest⟩ := wire_store_calls env
          (⟨loadedCfg compile cl c0, parsedFlags cl, loadCalls cl, 0⟩ : World R) hsql hev hjobs
        exact ⟨⟨0 + 3, ⟨0⟩⟩, rest, rfl, hcalls, hrest⟩

/-- Claim C9, witness: a run with one file in which everything opens: the store
is set up by `sql.Open`, `SetMaxOpenConns(1)`, the event repository, the
publisher and the job repository, in this order and on one handle. -/
theorem store_has_single_connection_witness :
    (loadConfig goCompile ⟨[.dbfile "events.db"], ["a.log"]⟩ (World.init builtinCfg)).1 = .ok () ∧
    ∃ (db : DB) (repo : EventRepository) (publisher : Publisher) (jobRepo : JobRepository)
      (rest : List (Call regexp.Regexp)),
      repo.db = db ∧ publisher.repo = repo ∧ jobRepo.db = db ∧
      (main goCompile Env.allOk ⟨[.dbfile "events.db"], ["a.log"]⟩ (World.init builtinCfg)).2.calls =
        (loadConfig goCompile ⟨[.dbfile "events.db"], ["a.log"]⟩ (World.init builtinCfg)).2.calls ++
          [ Call.sqlOpen "sqlite3"
              ((loadConfig goCompile ⟨[.dbfile "events.db"], ["a.log"]⟩
                (World.init builtinCfg)).2.cfg.SQLite.DatabaseFile ++ "?cache=shared") (some db),
            Call.setMaxOpenConns db 1,
            Call.eventsSqliteRepository db (some repo),
            Call.batchedRepositoryPublisher repo publisher,
            Call.jobsSqliteRepository db (some jobRepo) ] ++ rest := by
  have hl : (loadConfig goCompile ⟨[.dbfile "events.db"], ["a.log"]⟩ (World.init builtinCfg)).1 =
      .ok () := by
    rw [loadConfig_ok goCompile ⟨[.dbfile "events.db"], ["a.log"]⟩ builtinCfg
      (compiles_all goCompile _ (by decide)) (Or.inr ⟨_, rfl⟩)]
  obtain ⟨db, _, h2⟩ := (store_has_single_connection goCompile Env.allOk
    ⟨[.dbfile "events.db"], ["a.log"]⟩ builtinCfg hl).2.2 rfl
  obtain ⟨repo, publisher, hr, hp, _, h3⟩ := h2 rfl
  obtain ⟨jobRepo, rest, hj, hcalls, _⟩ := h3 rfl
  exact ⟨hl, db, repo, publisher, jobRepo, rest, hr, hp, hj, hcalls⟩

/-- Claim C10, as the code has it: when every extraction rule compiles, a malformed
event delimiter is found at start-up exactly when a file is monitored.  When the
extraction rules compile and the `-delimiter` value does not: with at least one
positional argument loading stops in the panic of `regexp.MustCompile`, right
after its first call; with none, loading completes, `cfg.IndexedFiles` is empty,
and `regexp.MustCompile` is not called anywhere in the run, so the delimiter is
never compiled. -/
theorem bad_delimiter_found_only_with_files {R : Type}
    (compile : String → Except String R) (env : Env) (cl : CommandLine) (c0 : Config R)
    (err : String)
    (hall : ∀ v ∈ cl.fieldExtractors, compiles compile v = true)
    (hbad : compile cl.delimiter = .error err) :
    (cl.args ≠ [] →
      (loadConfig compile cl (World.init c0)).1 =
        .error (.mustCompilePanic cl.delimiter err) ∧
      (main compile env cl (World.init c0)).1 =
        .error (.mustCompilePanic cl.delimiter err) ∧
      (main compile env cl (World.init c0)).2.calls =
        cl.fieldExtractors.map Call.regexpCompile ++ [Call.regexpMustCompile cl.delimiter]) ∧
    (cl.args = [] →
      (loadConfig compile cl (World.init c0)).1 = .ok () ∧
      (loadConfig compile cl (World.init c0)).2.cfg.IndexedFiles = [] ∧
      (main compile env cl (World.init c0)).2.cfg.IndexedFiles = [] ∧
      (loadConfig compile cl (World.init c0)).2.calls =
        cl.fieldExtractors.map Call.regexpCompile ∧
      ∀ c ∈ (main compile env cl (World.init c0)).2.calls, c.isMustCompile = false) := by
  have hall1 := compiles_all compile _ hall
  constructor
  · intro hne
    cases hargs : cl.args with
    | nil => exact absurd hargs hne
    | cons a rest =>
      have hl := loadConfig_panic compile cl c0 a rest err hall1 hargs hbad
      rw [main_of_load_error compile env cl _ _ _ hl, hl]
      exact ⟨rfl, rfl, rfl⟩
  · intro hargs
    have hl := loadConfig_ok compile cl c0 hall1 (Or.inl hargs)
    have hcalls : (loadCalls cl : List (Call R)) = cl.fieldExtractors.map Call.regexpCompile := by
      simp [loadCalls, hargs]
    rw [main_of_load_ok compile env cl _ _ hl, hl]
    obtain ⟨hcfg, res, post, hc, hnone, hsome⟩ :=
      wire_shape env (⟨loadedCfg compile cl c0, parsedFlags cl, loadCalls cl, 0⟩ : World R)
    refine ⟨rfl, by simp [loadedCfg, hargs], by rw [hcfg]; simp [loadedCfg, hargs], hcalls, ?_⟩
    intro c hmem
    rw [hc] at hmem
    simp only [List.mem_append, List.mem_cons] at hmem
    rcases hmem with h | h | h
    · rw [hcalls] at h
      simp only [List.mem_map] at h
      obtain ⟨v, _, rfl⟩ := h
      rfl
    · subst h; rfl
    · cases res with
      | none => rw [hnone rfl] at h; simp at h
      | some db =>
        obtain ⟨post1, hp, hprops⟩ := hsome db rfl
        rw [hp] at h
        rcases List.mem_cons.mp h with h1 | h1
        · subst h1; rfl
        · exact (hprops c h1).2.2.1

/-- Claim C10, witness: the delimiter `(` does not compile; with the file `a.log`
loading panics, with no file it completes. -/
theorem bad_delimiter_found_only_with_files_witness :
    (∀ v ∈ (CommandLine.mk [.delimiter "("] ["a.log"]).fieldExtractors,
      compiles goCompile v = true) ∧
    goCompile (CommandLine.mk [.delimiter "("] ["a.log"]).delimiter =
      .error "error parsing regexp: missing closing ): \x60(\x60" ∧
    (CommandLine.mk [.delimiter "("] ["a.log"]).args ≠ [] ∧
    (loadConfig goCompile ⟨[.delimiter "("], ["a.log"]⟩ (World.init builtinCfg)).1 =
      .error (.mustCompilePanic (CommandLine.mk [.delimiter "("] ["a.log"]).delimiter
        "error parsing regexp: missing closing ): \x60(\x60") ∧
    (loadConfig goCompile ⟨[.delimiter "("], []⟩ (World.init builtinCfg)).1 = .ok () ∧
    (loadConfig goCompile ⟨[.delimiter "("], []⟩ (World.init builtinCfg)).2.cfg.IndexedFiles = [] :=
  have h1 := (bad_delimiter_found_only_with_files goCompile Env.allOk
    ⟨[.delimiter "("], ["a.log"]⟩ builtinCfg "error parsing regexp: missing closing ): \x60(\x60"
    (by decide) (by rfl)).1 (by decide)
  have h2 := (bad_delimiter_found_only_with_files goCompile Env.allOk
    ⟨[.delimiter "("], []⟩ builtinCfg "error parsing regexp: missing closing ): \x60(\x60"
    (by decide) (by rfl)).2 rfl
  ⟨by decide, by rfl, by decide, h1.1, h2.1, h2.2.1⟩

/-- Claim C10, counterexample: the delimiter `(` does not compile and a file is
monitored, but the extraction rule `(` does not compile either: `main` is stopped
by `log.Fatalf` for the rule, not by a panic, and `regexp.MustCompile` is never
called; with no file monitored loading is stopped in the same way and does not
complete. -/
theorem bad_extractor_hides_bad_delimiter :
    compiles goCompile (CommandLine.mk [.fieldextractor "(", .delimiter "("] ["a.log"]).delimiter =
      false ∧
    (CommandLine.mk [.fieldextractor "(", .delimiter "("] ["a.log"]).args ≠ [] ∧
    (main goCompile Env.allOk ⟨[.fieldextractor "(", .delimiter "("], ["a.log"]⟩
        (World.init builtinCfg)).1 =
      .error (.fatal ("failed to compile regex \x27" ++ "(" ++ "\x27: " ++
        "error parsing regexp: missing closing ): \x60(\x60" ++ "\n")) ∧
    (main goCompile Env.allOk ⟨[.fieldextractor "(", .delimiter "("], ["a.log"]⟩
        (World.init builtinCfg)).2.calls = [Call.regexpCompile "("] ∧
    (loadConfig goCompile ⟨[.fieldextractor "(", .delimiter "("], []⟩ (World.init builtinCfg)).1 =
      .error (.fatal ("failed to compile regex \x27" ++ "(" ++ "\x27: " ++
        "error parsing regexp: missing closing ): \x60(\x60" ++ "\n")) := by
  have hv : goCompile "(" = .error "error parsing regexp: missing closing ): \x60(\x60" := by rfl
  have h1 := loadConfig_fatal goCompile ⟨[.fieldextractor "(", .delimiter "("], ["a.log"]⟩
    builtinCfg [] "(" [] _ rfl (by simp) hv
  have h2 := loadConfig_fatal goCompile ⟨[.fieldextractor "(", .delimiter "("], []⟩
    builtinCfg [] "(" [] _ rfl (by simp) hv
  rw [main_of_load_error goCompile Env.allOk _ _ _ _ h1, h2]
  exact ⟨by decide, by decide, rfl, rfl, rfl⟩

end Logsuck
